import Mathlib

/-!
Verification development for the retro-game-organiser repository.

Shallow embedding of the core algorithms:
  * `src/normalizer.py`  — filename parsing, dedup / similarity keys
  * `src/systems.py`     — system alias table and resolution
  * `src/consolidator.py`— dedup engine and consolidation run
  * `src/thumbnails.py`  — thumbnail matching cascade, listing cache, paths

Strings are modelled as `List Char` internally (Lean `String` at the API).
Python's `str.lower` is modelled on ASCII letters (all table keys and all
inputs of interest are ASCII).  The regex character classes `\d` and `\s`
are modelled as ASCII digits and the ASCII whitespace set that Python's
`re` uses on such inputs.
-/

namespace RGO

/-- The ASCII uppercase → lowercase table. -/
def ASCII_UPPER_LOWER : List (Char × Char) :=
  [('A','a'), ('B','b'), ('C','c'), ('D','d'), ('E','e'), ('F','f'), ('G','g'),
   ('H','h'), ('I','i'), ('J','j'), ('K','k'), ('L','l'), ('M','m'), ('N','n'),
   ('O','o'), ('P','p'), ('Q','q'), ('R','r'), ('S','s'), ('T','t'), ('U','u'),
   ('V','v'), ('W','w'), ('X','x'), ('Y','y'), ('Z','z')]

/-- ASCII model of Python `str.lower` on a single character. -/
def pyLowerChar (c : Char) : Char :=
  ((ASCII_UPPER_LOWER.find? (fun p => p.1 == c)).map (·.2)).getD c

/-- Model of the regex class `\d` (ASCII decimal digits). -/
def isDigitChar (c : Char) : Bool :=
  '0' ≤ c ∧ c ≤ '9'

/-- Model of the regex class `\s` (ASCII whitespace). -/
def isWsChar (c : Char) : Bool :=
  c = ' ' ∨ c = '\t' ∨ c = '\n' ∨ c = '\r' ∨ c = '\x0b' ∨ c = '\x0c'

def pyLowerL (l : List Char) : List Char := l.map pyLowerChar

/-- Python `str.lower` on strings. -/
def pyLowerS (s : String) : String := ⟨pyLowerL s.data⟩

/-- Python `str.strip()` (whitespace from both ends). -/
def pyStrip (l : List Char) : List Char :=
  ((l.dropWhile isWsChar).reverse.dropWhile isWsChar).reverse

/-- `re.sub(r'^\d{3}\s+', '', name)`: remove a leading run of exactly three
digits followed by one or more whitespace characters (the `\s+` is greedy,
so the whole leading whitespace run after the digits is removed).  A match
requires the fourth character to be whitespace, so a run of four or more
leading digits is never stripped. -/
def stripPrefix3 (l : List Char) : List Char :=
  match l with
  | d1 :: d2 :: d3 :: c :: rest =>
    if isDigitChar d1 ∧ isDigitChar d2 ∧ isDigitChar d3 ∧ isWsChar c then
      rest.dropWhile isWsChar
    else l
  | _ => l

/-- Scanner for `re.findall(r'\(([^)]+)\)', s)`: outside a group
(accumulator `none`) a `(` opens one; inside a group (accumulator
`some acc`) the first `)` closes it and emits the content — which must be
non-empty because of the `+`; an empty group `()` matches nothing and the
scan resumes after its `)`, exactly like the regex engine.  A group left
unclosed at the end of input never matches. -/
def findParensAux : Option (List Char) → List Char → List (List Char)
  | _, [] => []
  | none, c :: rest =>
    if c = '(' then findParensAux (some []) rest else findParensAux none rest
  | some acc, c :: rest =>
    if c = ')' then
      if acc.isEmpty then findParensAux none rest
      else acc :: findParensAux none rest
    else findParensAux (some (acc ++ [c])) rest

/-- `re.findall(r'\(([^)]+)\)', s)`: the captured group contents, left to
right, non-overlapping. -/
def findParens (l : List Char) : List (List Char) :=
  findParensAux none l

/-- Scanner state for `removeGroups`: copying the input, skipping the
whitespace run before an opener, or skipping up to the closer. -/
inductive RGState where
  | normal
  | toOpen
  | toClose

/-- Does a match of `\s*<op>[^<cl>]*<cl>` start at this position?  The
whitespace run is maximal, the group content runs to the first closer, so
a match needs the whitespace-skipped head to be the opener with a closer
somewhere behind it. -/
def rgMatchesAt (op cl : Char) (l : List Char) : Bool :=
  match l.dropWhile isWsChar with
  | o :: r2 => o == op && r2.contains cl
  | [] => false

/-- Scanner for `re.sub(r'\s*\([^)]*\)', '', s)` (and the `[...]`
variant): wherever a match starts, the whole match — whitespace run,
opener, content, closer — is consumed; elsewhere the character is copied
and the scan moves one position on, exactly like the regex engine. -/
def rgAux (op cl : Char) : RGState → List Char → List Char
  | _, [] => []
  | .normal, c :: rest =>
    if rgMatchesAt op cl (c :: rest) then
      if c = op then rgAux op cl .toClose rest
      else rgAux op cl .toOpen rest
    else c :: rgAux op cl .normal rest
  | .toOpen, c :: rest =>
    if c = op then rgAux op cl .toClose rest else rgAux op cl .toOpen rest
  | .toClose, c :: rest =>
    if c = cl then rgAux op cl .normal rest else rgAux op cl .toClose rest

/-- `re.sub(r'\s*\([^)]*\)', '', s)` and its bracket variant. -/
def removeGroups (op cl : Char) (l : List Char) : List Char :=
  rgAux op cl .normal l

/-- Scanner for `re.sub(r'\s+', ' ', s)`: the first character of a
whitespace run becomes a single space, the rest of the run is dropped. -/
def cwAux : Bool → List Char → List Char
  | _, [] => []
  | inRun, c :: rest =>
    if isWsChar c then
      if inRun then cwAux true rest else ' ' :: cwAux true rest
    else c :: cwAux false rest

/-- `re.sub(r'\s+', ' ', s)`: collapse each maximal whitespace run to a
single space. -/
def collapseWs (l : List Char) : List Char :=
  cwAux false l

/-- `pat in l` for lists (Python substring test). -/
def isSubstrL (pat : List Char) : List Char → Bool
  | [] => pat.isEmpty
  | c :: rest => pat.isPrefixOf (c :: rest) || isSubstrL pat rest

/-- Scanner for Python `str.replace(pat, rep)` (all occurrences, leftmost,
non-overlapping): when the pattern matches at the head, the replacement is
emitted and the skip counter drops the rest of the matched pattern. -/
def prAux (pat rep : List Char) : Nat → List Char → List Char
  | _, [] => []
  | 0, c :: rest =>
    if pat ≠ [] ∧ pat.isPrefixOf (c :: rest) then
      rep ++ prAux pat rep (pat.length - 1) rest
    else c :: prAux pat rep 0 rest
  | n + 1, _ :: rest => prAux pat rep n rest

/-- Python `str.replace(pat, rep)`; `pat` is non-empty at every use site,
mirroring the source. -/
def pyReplaceL (pat rep : List Char) (l : List Char) : List Char :=
  prAux pat rep 0 l

/-!  Model of `pathlib.PurePath` name/stem/suffix on plain file names. -/

/-- `Path(s).name`: the part after the last `/` (the filenames handled by
the program are plain names; trailing-slash normalisation is not needed). -/
def pathName (l : List Char) : List Char :=
  (l.reverse.takeWhile (fun c => c ≠ '/')).reverse

/-- `Path(s).suffix`: the extension from the last dot, provided that dot is
neither the first nor the last character of the name. -/
def pathSuffix (l : List Char) : List Char :=
  let name := pathName l
  let tail := (name.reverse.takeWhile (fun c => c ≠ '.')).reverse
  if tail.length = name.length then []        -- no dot at all
  else if name.length - tail.length - 1 = 0 then []  -- dot is the first char
  else if tail.length = 0 then []             -- dot is the last char
  else '.' :: tail

/-- `Path(s).stem`: the name with the suffix removed. -/
def pathStem (l : List Char) : List Char :=
  let name := pathName l
  name.take (name.length - (pathSuffix l).length)

/-!  `src/normalizer.py` -/

/-- `REGION_PATTERNS`: every pattern is a plain literal, matched with
`re.match(f'^{pattern}$', text, re.IGNORECASE)`, i.e. full-string
case-insensitive equality. -/
def REGION_PATTERNS : List String :=
  ["USA", "U", "US",
   "Japan", "J", "JP", "JPN",
   "Europe", "E", "EU", "EUR",
   "World", "W",
   "Korea", "K", "KR",
   "China", "C", "CN",
   "France", "F", "FR",
   "Germany", "G", "DE",
   "Spain", "S", "ES",
   "Italy", "I", "IT",
   "Australia", "A", "AU",
   "Brazil", "B", "BR",
   "Asia", "As",
   "En", "Ja", "Fr", "De", "Es", "It", "Ko", "Zh"]

/-- Whether a trimmed parenthetical text is classified as a region. -/
def isRegionText (mc : List Char) : Bool :=
  REGION_PATTERNS.any (fun t => pyLowerL t.data == pyLowerL mc)

/-- `_extract_parenthetical_info`, restricted to what the function returns:
each group content is trimmed; a region goes to the `regions` list; every
non-region content goes to `versions` — in the source the version-pattern
branch and the "neither region nor version" catch-all branch both append
`match_content`, so the `VERSION_PATTERNS` test does not affect the
output. -/
def classifyParens (ms : List (List Char)) : List (List Char) × List (List Char) :=
  ms.foldl
    (fun acc m =>
      let mc := pyStrip m
      if isRegionText mc then (acc.1 ++ [mc], acc.2)
      else (acc.1, acc.2 ++ [mc]))
    ([], [])

/-- `GameInfo` dataclass. -/
structure GameInfo where
  base_name : String
  region : Option String
  version : Option String
  original_filename : String
  clean_filename : String
deriving DecidableEq, Repr

/-- `" - ".join(versions)`. -/
def joinDash : List (List Char) → List Char
  | [] => []
  | [v] => v
  | v :: rest => v ++ " - ".data ++ joinDash rest

/-- `parse_game_filename`. -/
def parse_game_filename (filename : String) : GameInfo :=
  let original := pathName filename.data
  let name := pathStem filename.data
  let extension := pathSuffix filename.data
  let clean_name := stripPrefix3 name
  let (regions, versions) := classifyParens (findParens clean_name)
  let base0 := removeGroups '(' ')' clean_name
  let base1 := removeGroups '[' ']' base0
  let base_name := pyStrip (collapseWs base1)
  { base_name := ⟨base_name⟩
    region := regions.head?.map (fun r => (⟨r⟩ : String))
    version := if versions.isEmpty then none else some ⟨joinDash versions⟩
    original_filename := ⟨original⟩
    clean_filename := ⟨clean_name ++ extension⟩ }

/-- `"|".join(parts)`. -/
def joinPipe : List String → String
  | [] => ""
  | [s] => s
  | s :: rest => s ++ "|" ++ joinPipe rest

/-- `GameInfo.dedup_key`; `if self.region:` / `if self.version:` are Python
truthiness tests, false for `None` and for the empty string. -/
def GameInfo.dedup_key (g : GameInfo) : String :=
  let parts := [pyLowerS g.base_name]
  let parts := parts ++ (match g.region with
    | some r => if r ≠ "" then [pyLowerS r] else []
    | none => [])
  let parts := parts ++ (match g.version with
    | some v => if v ≠ "" then [pyLowerS v] else []
    | none => [])
  joinPipe parts

/-- `GameInfo.similarity_key`. -/
def GameInfo.similarity_key (g : GameInfo) : String :=
  pyLowerS g.base_name

/-- `get_dedup_key`. -/
def get_dedup_key (filename : String) : String :=
  (parse_game_filename filename).dedup_key

/-- `get_similarity_key`. -/
def get_similarity_key (filename : String) : String :=
  (parse_game_filename filename).similarity_key

/-!  `src/systems.py` -/

/-- The `SYSTEMS` dict, in source (insertion) order; keys are unique. -/
def SYSTEMS : List (String × String) := [
  ("3do", "Panasonic 3DO Interactive Multiplayer"),
  ("abuse", "Abuse (port)"),
  ("adam", "Coleco Adam"),
  ("advision", "Magnavox Odyssey\u00B2 / Philips Videopac+"),
  ("amiga500", "Commodore Amiga 500"),
  ("amiga1200", "Commodore Amiga 1200"),
  ("amigacd32", "Commodore Amiga CD32"),
  ("amigacdtv", "Commodore Amiga CDTV"),
  ("amstradcpc", "Amstrad CPC"),
  ("apfm1000", "APF Imagination Machine (APF-M1000)"),
  ("apple2", "Apple II"),
  ("apple2gs", "Apple IIGS"),
  ("arcade", "Arcade (various)"),
  ("arcadia", "Arcadia 2001"),
  ("archimedes", "Acorn Archimedes"),
  ("arduboy", "Arduboy"),
  ("astrocde", "Bally Astrocade"),
  ("atari800", "Atari 8-bit (400/800/XL/XE)"),
  ("atari2600", "Atari 2600"),
  ("atari5200", "Atari 5200"),
  ("atari7800", "Atari 7800"),
  ("atarist", "Atari ST"),
  ("atom", "Acorn Atom"),
  ("atomiswave", "Sammy Atomiswave (arcade)"),
  ("bbc", "Acorn BBC Micro"),
  ("c20", "Commodore VIC-20"),
  ("c64", "Commodore 64"),
  ("c128", "Commodore 128"),
  ("camplynx", "Camputers Lynx"),
  ("cannonball", "Cannonball (OutRun engine/port)"),
  ("cavestory", "Cave Story (port)"),
  ("cdi", "Philips CD-i"),
  ("cdogs", "C-Dogs (port)"),
  ("cgenius", "Commander Genius (Apogee games port)"),
  ("channelf", "Fairchild Channel F"),
  ("coco", "Tandy/RadioShack TRS-80 Color Computer"),
  ("colecovision", "ColecoVision"),
  ("commanderx16", "Commander X16"),
  ("corsixth", "Corsix\u0027s Mod (Theme Hospital port)"),
  ("cplus4", "Commodore Plus/4"),
  ("cps1", "Capcom CPS-1 (arcade)"),
  ("cps2", "Capcom CPS-2 (arcade)"),
  ("cps3", "Capcom CPS-3 (arcade)"),
  ("crvision", "CreatiVision"),
  ("daphne", "Daphne (laserdisc arcade)"),
  ("devilutionx", "DevilutionX (Diablo port)"),
  ("dos", "MS-DOS/PC (various ports)"),
  ("dreamcast", "Sega Dreamcast"),
  ("easyrpg", "EasyRPG (RPG Maker 2000/2003)"),
  ("ecwolf", "ECWolf (Wolfenstein 3D port)"),
  ("eduke32", "EDuke32 (Duke Nukem 3D port)"),
  ("electron", "Acorn Electron"),
  ("emulators", "(meta/folder)"),
  ("fallout1-ce", "Fallout 1 Community Edition (port)"),
  ("fallout2-ce", "Fallout 2 Community Edition (port)"),
  ("fbneo", "FinalBurn Neo (arcade)"),
  ("fds", "Nintendo Famicom Disk System"),
  ("flash", "Adobe Flash (via Ruffle/etc.)"),
  ("fm7", "Fujitsu FM-7"),
  ("fmtowns", "Fujitsu FM Towns"),
  ("fury", "Fury of the Furries (port)"),
  ("gamate", "Bit Corporation Gamate"),
  ("gameandwatch", "Nintendo Game & Watch"),
  ("gamecom", "Tiger Game.com"),
  ("gamegear", "Sega Game Gear"),
  ("gamepock", "Epoch Game Pocket Computer"),
  ("gb", "Nintendo Game Boy"),
  ("gb2players", "Game Boy (link/2-player)"),
  ("gba", "Nintendo Game Boy Advance"),
  ("gbc", "Nintendo Game Boy Color"),
  ("gbc2players", "Game Boy Color (link/2-player)"),
  ("genesis", "Sega Genesis/Mega Drive"),
  ("gmaster", "Hartung Game Master"),
  ("gp32", "GamePark 32"),
  ("gx4000", "Amstrad GX4000"),
  ("gzdoom", "GZDoom (Doom port)"),
  ("hcl", "Hover: Combat Racing (port or similar)"),
  ("hurrican", "Hurrican (port)"),
  ("intellivision", "Mattel Intellivision"),
  ("iortcw", "iortcw (Return to Castle Wolfenstein port)"),
  ("jaguar", "Atari Jaguar"),
  ("jaguarcd", "Atari Jaguar CD"),
  ("laser310", "Video Technology Laser 310"),
  ("lcdgames", "Handheld LCD games"),
  ("lowresnx", "LowRes NX (fantasy console)"),
  ("lutro", "Lutro (L\u00D6VE framework)"),
  ("lynx", "Atari Lynx"),
  ("macintosh", "Apple Macintosh (early)"),
  ("mame", "MAME (arcade)"),
  ("mastersystem", "Sega Master System"),
  ("megadrive", "Sega Mega Drive (Genesis)"),
  ("megadrivejp", "Sega Mega Drive (Japan)"),
  ("megaduck", "Mega Duck"),
  ("moonlight", "Moonlight (GameStream client)"),
  ("mpv", "mpv (media player)"),
  ("mrboom", "Mr. Boom (Bomberman clone)"),
  ("msu-md", "MSU-1 Mega Drive enhancement"),
  ("msx1", "MSX1"),
  ("msx2", "MSX2"),
  ("msx2+", "MSX2+"),
  ("msxturbor", "MSX Turbo R"),
  ("multivision", "Mitsubishi MultiVision"),
  ("n64", "Nintendo 64"),
  ("n64dd", "Nintendo 64DD"),
  ("naomi", "Sega NAOMI (arcade)"),
  ("naomi2", "Sega NAOMI 2 (arcade)"),
  ("nds", "Nintendo DS"),
  ("neogeo", "SNK Neo Geo AES/MVS"),
  ("neogeocd", "SNK Neo Geo CD"),
  ("nes", "Nintendo Entertainment System"),
  ("ngp", "SNK Neo Geo Pocket"),
  ("ngpc", "SNK Neo Geo Pocket Color"),
  ("o2em", "Magnavox Odyssey\u00B2"),
  ("odcommander", "OpenDingux Commander (file manager?)"),
  ("openbor", "OpenBOR (Beat \u0027em Up engine)"),
  ("openjazz", "OpenJazz (Jazz Jackrabbit port)"),
  ("pc88", "NEC PC-88"),
  ("pc98", "NEC PC-98"),
  ("pcengine", "NEC PC Engine / TurboGrafx-16"),
  ("pcenginecd", "NEC PC Engine CD / TurboGrafx-CD"),
  ("pdp1", "DEC PDP-1"),
  ("pet", "Commodore PET"),
  ("pico", "Sega Pico"),
  ("pico8", "PICO-8 (fantasy console)"),
  ("plugnplay", "Plug & Play TV games"),
  ("pokemini", "Pok\u00E9mon Mini"),
  ("ports", "Various game ports"),
  ("prboom", "prBoom (Doom port)"),
  ("psp", "Sony PlayStation Portable"),
  ("psx", "Sony PlayStation"),
  ("ps1", "Sony PlayStation"),
  ("pv1000", "Casio PV-1000"),
  ("pygame", "PyGame games"),
  ("quake3", "Quake III Arena (port)"),
  ("raze", "Raze (Build engine port)"),
  ("reminiscence", "Reminiscence (Flashback port)"),
  ("rott", "Rise of the Triad (port)"),
  ("samcoupe", "SAM Coup\u00E9"),
  ("satellaview", "Nintendo Satellaview (BS-X)"),
  ("saturn", "Sega Saturn"),
  ("scummvm", "ScummVM (adventure games)"),
  ("scv", "Epoch Super Cassette Vision"),
  ("sdlpop", "SDLPoP (Prince of Persia port)"),
  ("sega32x", "Sega 32X"),
  ("segacd", "Sega CD"),
  ("sfc", "Super Famicom (SNES Japan)"),
  ("sg1000", "Sega SG-1000"),
  ("sgb", "Super Game Boy"),
  ("singe", "Singe (Daphne laserdisc alternative)"),
  ("snes", "Super Nintendo Entertainment System"),
  ("snes-msu1", "SNES with MSU-1 enhancement"),
  ("socrates", "VTech Socrates"),
  ("solarus", "Solarus (Zelda-like engine)"),
  ("sonicretro", "Sonic Retro ports/mods"),
  ("spectravideo", "Spectravideo"),
  ("sufami", "Bandai Sufami Turbo"),
  ("superbroswar", "Super Bros War (port)"),
  ("supergrafx", "NEC SuperGrafx"),
  ("supervision", "Supervision handheld"),
  ("supracan", "Super A\u0027Can"),
  ("systemsp", "(likely Systems+ or placeholder)"),
  ("tg16", "NEC TurboGrafx-16"),
  ("tg16cd", "TurboGrafx-CD"),
  ("thextech", "TheXTech (platformer engine)"),
  ("thomson", "Thomson computers (MO/TO series)"),
  ("ti99", "Texas Instruments TI-99/4A"),
  ("tic80", "TIC-80 (fantasy console)"),
  ("tools", "(meta/folder)"),
  ("tutor", "Luxor ABC Tutor"),
  ("tyrian", "Tyrian (port)"),
  ("tyrquake", "TyrQuake (Quake port)"),
  ("uzebox", "Uzebox"),
  ("vc4000", "Interton VC 4000"),
  ("vectrex", "GCE Vectrex"),
  ("vgmplay", "VGMPlay (chiptune player)"),
  ("videopacplus", "Philips Videopac+ (Odyssey\u00B2 variant)"),
  ("virtualboy", "Nintendo Virtual Boy"),
  ("vis", "(likely Visual 6502 or similar niche)"),
  ("vitaquake2", "VitaQuake2 (Quake II port)"),
  ("vsmile", "VTech V.Smile"),
  ("wswan", "Bandai WonderSwan"),
  ("wswanc", "WonderSwan Color"),
  ("x1", "Sharp X1"),
  ("x68000", "Sharp X68000"),
  ("xash3d_fwgs", "Xash3D FWGS (Half-Life engine)"),
  ("xegs", "Atari XEGS"),
  ("xrick", "xrick (Rick Dangerous port)"),
  ("zc210", "(possibly niche or typo; unclear)"),
  ("zx81", "Sinclair ZX81"),
  ("zxspectrum", "Sinclair ZX Spectrum"),
  ("ARCADE", "Arcade (various)"),
  ("ATARI2600", "Atari 2600"),
  ("ATARI7800", "Atari 7800"),
  ("CPS1", "Capcom CPS-1 (arcade)"),
  ("CPS2", "Capcom CPS-2 (arcade)"),
  ("CPS3", "Capcom CPS-3 (arcade)"),
  ("DC", "Sega Dreamcast"),
  ("EASYRPG", "EasyRPG (RPG Maker 2000/2003)"),
  ("FBNEO", "FinalBurn Neo (arcade)"),
  ("FC", "Nintendo Famicom / NES"),
  ("FFMPEG", "FFmpeg (media player/tool)"),
  ("GB", "Nintendo Game Boy"),
  ("GBA", "Nintendo Game Boy Advance"),
  ("GBC", "Nintendo Game Boy Color"),
  ("GG", "Sega Game Gear"),
  ("GW", "Nintendo Game & Watch"),
  ("LYNX", "Atari Lynx"),
  ("MAME", "MAME (arcade)"),
  ("MAME2003PLUS", "MAME 2003 Plus (arcade)"),
  ("MAME2010", "MAME 2010 (arcade)"),
  ("MD", "Sega Mega Drive / Genesis"),
  ("MS", "Sega Master System"),
  ("N64", "Nintendo 64"),
  ("NDS", "Nintendo DS"),
  ("NEOGEO", "SNK Neo Geo AES/MVS"),
  ("NGP", "SNK Neo Geo Pocket"),
  ("OPENBOR", "OpenBOR (Beat \u0027em Up engine)"),
  ("PCE", "NEC PC Engine / TurboGrafx-16"),
  ("PGM", "PolyGame Master (arcade)"),
  ("PICO8", "PICO-8 (fantasy console)"),
  ("PS", "Sony PlayStation"),
  ("PSP", "Sony PlayStation Portable"),
  ("SFC", "Super Famicom (SNES Japan)"),
  ("SS", "Sega Saturn"),
  ("WS", "Bandai WonderSwan")
]

/-- `normalize_system_key`. -/
def normalize_system_key (key : String) : String := pyLowerS key

/-- Stable insertion of `x` into a list already sorted by key length,
descending: `x` is placed before the first element with a strictly
shorter key, after all elements with keys at least as long. -/
def insertByLenDesc (x : String × String) :
    List (String × String) → List (String × String)
  | [] => [x]
  | y :: ys =>
    if y.1.length ≤ x.1.length then x :: y :: ys else y :: insertByLenDesc x ys

/-- `sorted(SYSTEMS.keys(), key=len, reverse=True)`: a stable sort,
descending by key length (equal lengths keep insertion order).  The model
sorts the (key, value) pairs — keys are unique, so pairing each sorted key
with `SYSTEMS[key]` as the source does yields the same result. -/
def sortByLenDesc (l : List (String × String)) : List (String × String) :=
  l.foldr insertByLenDesc []

/-- The tier-3 containment test of `get_system_info`: keys of length at
most 2 are skipped; otherwise the lowercased key must occur in the
lowercased input or in the input with spaces, hyphens and underscores
removed (`lower_key.replace(" ", "").replace("-", "").replace("_", "")`). -/
def containment_key_matches (lower_key : String) (p : String × String) : Bool :=
  if p.1.length ≤ 2 then false
  else isSubstrL (pyLowerL p.1.data) lower_key.data ||
       isSubstrL (pyLowerL p.1.data)
         (pyReplaceL "_".data [] (pyReplaceL "-".data []
           (pyReplaceL " ".data [] lower_key.data)))

/-- `get_system_info`: exact key match, then case-insensitive key match,
then containment match over keys sorted longest-first (Python's local
`lower_key` is inlined as `normalize_system_key system_key`). -/
def get_system_info (system_key : String) : Option (String × String) :=
  match SYSTEMS.find? (fun p => p.1 == system_key) with
  | some p => some (system_key, p.2)
  | none =>
    match SYSTEMS.find? (fun p =>
        normalize_system_key p.1 == normalize_system_key system_key) with
    | some p => some p
    | none =>
      match (sortByLenDesc SYSTEMS).find?
          (containment_key_matches (normalize_system_key system_key)) with
      | some p => some p
      | none => none

/-- `get_output_folder_name`. -/
def get_output_folder_name (system_key : String) : String :=
  match get_system_info system_key with
  | some info => info.1 ++ "-" ++ info.2
  | none => system_key

/-- `is_known_system`. -/
def is_known_system (system_key : String) : Bool :=
  (get_system_info system_key).isSome

/-!  `src/scanner.py` / `src/consolidator.py`

A `RomFile` carries its filename and the system folder it was found in;
`game_info` is always `parse_game_filename(filename)` (scanner.py line
103), so the model derives it.  The output directory is modelled as a list
of (folder name, file names) pairs; directory traversal and byte copying
are the out-of-scope I/O of spec §6. -/

structure Rom where
  filename : String
  system_key : String
deriving DecidableEq, Repr

def Rom.game_info (r : Rom) : GameInfo := parse_game_filename r.filename

def Rom.dedup_key (r : Rom) : String := r.game_info.dedup_key

def Rom.clean_filename (r : Rom) : String := r.game_info.clean_filename

/-- The value stored in `Consolidator._seen`: `_mark_existing` stores the
output file name (a `str`), `_mark_seen` stores the `RomFile`. -/
inductive SeenVal where
  | existingFile (filename : String)
  | inputRom (rom : Rom)
deriving DecidableEq, Repr

structure ConsolidationOptions where
  dry_run : Bool := false
  overwrite : Bool := false
  systems_filter : Option (List String) := none
deriving DecidableEq, Repr

/-- The consolidator's mutable state: options, the modelled output
directory, the seen-map, and the `ConsolidationResult` counters/lists. -/
structure CState where
  opts : ConsolidationOptions
  output : List (String × List String)
  seen : List ((String × String) × SeenVal) := []
  copied : Nat := 0
  skipped_duplicates : Nat := 0
  skipped_existing : Nat := 0
  skipped_unknown_system : Nat := 0
  skipped_filtered : Nat := 0
  errors : List String := []
  copied_files : List (String × String × String) := []
  duplicate_files : List (String × String × String) := []
  existing_files : List (String × String) := []
deriving DecidableEq, Repr

/-- Python dict lookup on the seen-map. -/
def seenLookup (seen : List ((String × String) × SeenVal)) (k : String × String) :
    Option SeenVal :=
  (seen.find? (fun e => e.1 == k)).map (·.2)

/-- Python dict assignment `seen[k] = v` (overwrite or append). -/
def seenInsert (seen : List ((String × String) × SeenVal)) (k : String × String)
    (v : SeenVal) : List ((String × String) × SeenVal) :=
  if seen.any (fun e => e.1 == k) then
    seen.map (fun e => if e.1 == k then (k, v) else e)
  else seen ++ [(k, v)]

/-- Does `folder/file` exist in the modelled output directory? -/
def fileExistsIn (output : List (String × List String)) (folder file : String) : Bool :=
  match output.find? (fun e => e.1 == folder) with
  | some e => e.2.contains file
  | none => false

/-- `shutil.copy2` into the modelled output directory (with the preceding
`mkdir`). -/
def addFileTo (output : List (String × List String)) (folder file : String) :
    List (String × List String) :=
  if output.any (fun e => e.1 == folder) then
    output.map (fun e =>
      if e.1 == folder then (e.1, if e.2.contains file then e.2 else e.2 ++ [file])
      else e)
  else output ++ [(folder, [file])]

/-- `Consolidator._normalize_system_for_dedup`. -/
def normalize_system_for_dedup (system_key : String) : String :=
  match get_system_info system_key with
  | some info => pyLowerS info.1
  | none => pyLowerS system_key

/-- The composite seen-key `(normalized system, dedup key)`. -/
def Rom.full_key (r : Rom) : String × String :=
  (normalize_system_for_dedup r.system_key, r.dedup_key)

/-- `Consolidator._is_system_allowed`. -/
def is_system_allowed (opts : ConsolidationOptions) (system_key : String) : Bool :=
  match opts.systems_filter with
  | none => true
  | some fl =>
    match get_system_info system_key with
    | none => false
    | some info => fl.contains (pyLowerS info.1)

/-- How `Consolidator.consolidate` classifies one scanned ROM: the filter
check, then the `_is_duplicate` lookup distinguishing a `str` marker
(already in output) from a `RomFile` marker (input duplicate). -/
inductive Outcome where
  | filtered
  | new
  | dupInput (orig : Rom)
  | existsOut (orig : String)
deriving DecidableEq, Repr

def classify (st : CState) (rom : Rom) : Outcome :=
  if ¬ is_system_allowed st.opts rom.system_key then .filtered
  else
    match seenLookup st.seen rom.full_key with
    | none => .new
    | some (.existingFile f) => .existsOut f
    | some (.inputRom o) => .dupInput o

/-- `Consolidator._mark_existing`. -/
def mark_existing (st : CState) (system_key filename : String) : CState :=
  let k := (normalize_system_for_dedup system_key,
            (parse_game_filename filename).dedup_key)
  { st with seen := seenInsert st.seen k (.existingFile filename) }

/-- `Consolidator._scan_existing_output`: for each system folder of the
output directory, the system key is the folder name up to the first `-`
(`folder_name.split("-")[0]`), and every non-hidden file is marked. -/
def scan_existing_output (st : CState) : CState :=
  st.output.foldl
    (fun st e =>
      let system_key := (⟨e.1.data.takeWhile (fun c => c ≠ '-')⟩ : String)
      e.2.foldl
        (fun st fn =>
          if fn.data.head? = some '.' then st
          else
            let st := mark_existing st system_key fn
            { st with existing_files := st.existing_files ++ [(system_key, fn)] })
        st)
    st

/-- `Consolidator._copy_rom` (the exception branch carries no behaviour in
the model: the modelled copy does not fail). -/
def copy_rom (st : CState) (rom : Rom) : CState :=
  if ¬ st.opts.dry_run
      ∧ fileExistsIn st.output (get_output_folder_name rom.system_key) rom.clean_filename
      ∧ ¬ st.opts.overwrite then
    st   -- "Skipping (exists)": return False with no counter change
  else
    { st with
        output :=
          if st.opts.dry_run then st.output
          else addFileTo st.output (get_output_folder_name rom.system_key)
            rom.clean_filename
        copied := st.copied + 1
        copied_files := st.copied_files ++
          [(rom.system_key, rom.clean_filename,
            get_output_folder_name rom.system_key ++ "/" ++ rom.clean_filename)] }

/-- One iteration of the loop in `Consolidator.consolidate`. -/
def processRom (st : CState) (rom : Rom) : CState :=
  match classify st rom with
  | .filtered => { st with skipped_filtered := st.skipped_filtered + 1 }
  | .existsOut _ => { st with skipped_existing := st.skipped_existing + 1 }
  | .dupInput o =>
    { st with
        skipped_duplicates := st.skipped_duplicates + 1
        duplicate_files := st.duplicate_files ++
          [(rom.system_key, rom.filename, o.filename)] }
  | .new =>
    let st := { st with seen := seenInsert st.seen rom.full_key (.inputRom rom) }
    copy_rom st rom

def processRoms (st : CState) (roms : List Rom) : CState :=
  roms.foldl processRom st

/-- `Consolidator.consolidate`: seed the seen-set from the existing output,
then process every scanned ROM in order. -/
def consolidate (opts : ConsolidationOptions) (output0 : List (String × List String))
    (roms : List Rom) : CState :=
  processRoms (scan_existing_output { opts := opts, output := output0 }) roms

/-- The sequence of classification outcomes along a run. -/
def runTrace (st : CState) : List Rom → List Outcome
  | [] => []
  | r :: rs => classify st r :: runTrace (processRom st r) rs

/-- How many ROMs of `roms` with seen-key `k` are classified `new` (and
hence accepted) along the run starting from `st`. -/
def newCount (st : CState) (roms : List Rom) (k : String × String) : Nat :=
  ((runTrace st roms).zip roms).countP
    (fun p => p.1 == Outcome.new && p.2.full_key == k)

/-!  `src/thumbnails.py` -/

def LIBRETRO_BASE_URL : String := "https://raw.githubusercontent.com/libretro-thumbnails"

def GITHUB_API_URL : String := "https://api.github.com/repos/libretro-thumbnails"

def THUMBNAIL_TYPES : List (String × String) :=
  [("boxart", "Named_Boxarts"), ("snap", "Named_Snaps"), ("title", "Named_Titles")]

/-- `THUMBNAIL_TYPES.get(thumbnail_type, "Named_Boxarts")`. -/
def thumbnailTypesGet (thumbnail_type : String) : String :=
  ((THUMBNAIL_TYPES.find? (fun p => p.1 == thumbnail_type)).map (·.2)).getD "Named_Boxarts"

/-- `normalize_for_matching`: lowercase, then keep only `[a-z0-9]`. -/
def normalize_for_matching (name : String) : String :=
  ⟨(pyLowerL name.data).filter
    (fun c => ('a' ≤ c ∧ c ≤ 'z') ∨ ('0' ≤ c ∧ c ≤ '9'))⟩

/-- `extract_base_name`: remove `(...)` groups, then `[...]` groups, then
strip — no whitespace collapsing here, unlike `parse_game_filename`. -/
def extract_base_name (name : String) : String :=
  ⟨pyStrip (removeGroups '[' ']' (removeGroups '(' ')' name.data))⟩

/-- Lookup in a Python dict comprehension `{key(f): f for f in files}`:
on key collisions the last file wins. -/
def dictOf (ps : List (String × String)) (k : String) : Option String :=
  (ps.reverse.find? (fun p => p.1 == k)).map (·.2)

/-- Tier 1: exact match, case-insensitive. -/
def mt_tier1 (game_name : String) (files : List String) : Option String :=
  dictOf (files.map (fun f => (pyLowerS f, f))) (pyLowerS game_name)

/-- Tier 2: base-name match (parenthetical/bracket content stripped). -/
def mt_tier2 (game_name : String) (files : List String) : Option String :=
  dictOf (files.map (fun f => (pyLowerS (extract_base_name f), f)))
    (pyLowerS (extract_base_name game_name))

/-- Tier 3: alphanumeric-only match of the full names. -/
def mt_tier3 (game_name : String) (files : List String) : Option String :=
  dictOf (files.map (fun f => (normalize_for_matching f, f)))
    (normalize_for_matching game_name)

/-- Tier 4: local base name, alphanumeric-only, against full remote names. -/
def mt_tier4 (game_name : String) (files : List String) : Option String :=
  dictOf (files.map (fun f => (normalize_for_matching f, f)))
    (normalize_for_matching (extract_base_name game_name))

/-- Tier 5: both sides reduced to base form then alphanumeric-only. -/
def mt_tier5 (game_name : String) (files : List String) : Option String :=
  dictOf (files.map (fun f => (normalize_for_matching (extract_base_name f), f)))
    (normalize_for_matching (extract_base_name game_name))

/-- Tier 6: prefix containment of normalized base forms, first file wins. -/
def mt_tier6 (game_name : String) (files : List String) : Option String :=
  let g := normalize_for_matching (extract_base_name game_name)
  files.find? (fun avail =>
    let a := (normalize_for_matching (extract_base_name avail)).data
    g.data.isPrefixOf a || a.isPrefixOf g.data)

/-- Tier 7: case-insensitive equality of base forms, first file wins. -/
def mt_tier7 (game_name : String) (files : List String) : Option String :=
  let g := pyLowerS (extract_base_name game_name)
  files.find? (fun avail => pyLowerS (extract_base_name avail) == g)

/-- `match_thumbnail`: the seven-tier cascade, first hit returns. -/
def match_thumbnail (game_name : String) (available_files : List String) :
    Option String :=
  if available_files.isEmpty then none
  else
    match mt_tier1 game_name available_files with
    | some f => some f
    | none =>
      match mt_tier2 game_name available_files with
      | some f => some f
      | none =>
        match mt_tier3 game_name available_files with
        | some f => some f
        | none =>
          match mt_tier4 game_name available_files with
          | some f => some f
          | none =>
            match mt_tier5 game_name available_files with
            | some f => some f
            | none =>
              match mt_tier6 game_name available_files with
              | some f => some f
              | none => mt_tier7 game_name available_files

/-- What one HTTP fetch of the Git Trees listing can produce: a parsed
tree (the `path` fields), an `HTTPError` with a status code, or any other
exception.  The network is out of scope (spec §6); a run's fetches are
modelled by an oracle from the request URL to an outcome. -/
inductive FetchOutcome where
  | tree (paths : List String)
  | httpError (code : Nat) (msg : String)
  | failure (msg : String)

/-- `ThumbnailCache` state: `_cache` and `_errors`. -/
structure ThumbnailCache where
  cache : List (String × List String) := []
  errors : List String := []
deriving DecidableEq, Repr

def endsWithL (l suf : List Char) : Bool := suf.isSuffixOf l

/-- The tree entries kept by `get_available_files`: names ending in `.png`,
with the extension removed (`name[:-4]`). -/
def pngStems (paths : List String) : List String :=
  paths.filterMap (fun n =>
    if endsWithL n.data ".png".data then
      some ((⟨n.data.take (n.data.length - 4)⟩ : String))
    else none)

/-- `cache_key = f"{libretro_system}/{libretro_type}"`. -/
def thumb_cache_key (libretro_system thumbnail_type : String) : String :=
  libretro_system ++ "/" ++ thumbnailTypesGet thumbnail_type

/-- `api_url = f"{GITHUB_API_URL}/{libretro_system}/git/trees/master:{libretro_type}"`. -/
def thumb_api_url (libretro_system thumbnail_type : String) : String :=
  GITHUB_API_URL ++ "/" ++ libretro_system ++ "/git/trees/master:"
    ++ thumbnailTypesGet thumbnail_type

/-- `ThumbnailCache.get_available_files`.  Returns the file list, the
updated cache state, and whether a network fetch was performed.  A
successful listing keeps the `.png` entries with the extension removed and
is cached; a 404 caches the empty list; any other failure appends an error
and caches nothing. -/
def get_available_files (fetch : String → FetchOutcome) (st : ThumbnailCache)
    (libretro_system thumbnail_type : String) :
    List String × ThumbnailCache × Bool :=
  match (st.cache.find?
      (fun e => e.1 == thumb_cache_key libretro_system thumbnail_type)).map (·.2) with
  | some files => (files, st, false)
  | none =>
    match fetch (thumb_api_url libretro_system thumbnail_type) with
    | .tree paths =>
      (pngStems paths,
       { st with cache := st.cache ++
           [(thumb_cache_key libretro_system thumbnail_type, pngStems paths)] }, true)
    | .httpError code msg =>
      if code = 404 then
        ([], { st with cache := st.cache ++
            [(thumb_cache_key libretro_system thumbnail_type, [])] }, true)
      else
        ([], { st with errors := st.errors ++
                ["Error fetching " ++ thumb_api_url libretro_system thumbnail_type
                  ++ ": " ++ msg] }, true)
    | .failure msg =>
      ([], { st with errors := st.errors ++
              ["Error fetching " ++ thumb_api_url libretro_system thumbnail_type
                ++ ": " ++ msg] }, true)

/-- `download_for_directory`'s images folder name:
`THUMBNAIL_TYPES.get(...).replace("Named_", "").lower()`. -/
def type_folder (thumbnail_type : String) : String :=
  pyLowerS ⟨pyReplaceL "Named_".data [] (thumbnailTypesGet thumbnail_type).data⟩

/-- The lookup name of a ROM file
(`ThumbnailDownloader._get_game_name_from_file`): the stem of the cleaned
filename. -/
def get_game_name_from_file (filename : String) : String :=
  ⟨pathStem (parse_game_filename filename).clean_filename.data⟩

/-- The artwork destination path built by `download_for_directory`:
`system_folder / "images" / type_folder / f"{game_name}.png"`. -/
def dest_thumbnail_path (system_folder thumbnail_type game_name : String) : String :=
  system_folder ++ "/images/" ++ type_folder thumbnail_type ++ "/" ++ game_name ++ ".png"

/-!  Concrete scenario used by several examples: an output directory
materialized by an earlier run for the hyphenated canonical system key
`snes-msu1`, and the same ROM scanned again from a source tree. -/

def exHyphenFolder : String := "snes-msu1-SNES with MSU-1 enhancement"

def exHyphenOutput : List (String × List String) :=
  [(exHyphenFolder, ["Game (USA).bin"])]

def exHyphenState : CState := { opts := {}, output := exHyphenOutput }

def exHyphenRom : Rom := { filename := "Game (USA).bin", system_key := "snes-msu1" }

/-! ### Helper lemmas: `pyLower` -/

theorem pyLowerChar_idem (c : Char) : pyLowerChar (pyLowerChar c) = pyLowerChar c := by
  unfold pyLowerChar
  cases h : ASCII_UPPER_LOWER.find? (fun p => p.1 == c) with
  | none => simp [h]
  | some p =>
    have hp : p ∈ ASCII_UPPER_LOWER := List.mem_of_find?_eq_some h
    have hall : ∀ q ∈ ASCII_UPPER_LOWER,
        ASCII_UPPER_LOWER.find? (fun p => p.1 == q.2) = none := by decide
    simp [hall p hp]

theorem pyLowerL_idem (l : List Char) : pyLowerL (pyLowerL l) = pyLowerL l := by
  simp [pyLowerL, Function.comp_def, pyLowerChar_idem]

theorem pyLowerS_idem (s : String) : pyLowerS (pyLowerS s) = pyLowerS s := by
  simp [pyLowerS, pyLowerL_idem]

/-! ### Helper lemmas: `get_system_info` -/

theorem mem_insertByLenDesc {x y : String × String} :
    ∀ {l : List (String × String)}, x ∈ insertByLenDesc y l ↔ x = y ∨ x ∈ l := by
  intro l
  induction l with
  | nil => simp [insertByLenDesc]
  | cons a as ih =>
    by_cases h : a.1.length ≤ y.1.length
    · simp [insertByLenDesc, h]
    · simp [insertByLenDesc, h, ih]
      tauto

theorem mem_sortByLenDesc {x : String × String} :
    ∀ {l : List (String × String)}, x ∈ sortByLenDesc l ↔ x ∈ l := by
  intro l
  induction l with
  | nil => simp [sortByLenDesc]
  | cons a as ih =>
    simp only [sortByLenDesc, List.foldr_cons] at *
    rw [mem_insertByLenDesc, ih]
    simp

/-- Whatever tier produced it, the pair returned by `get_system_info` is an
entry of `SYSTEMS` (for tier 1 because the matched pair's key is the input
itself). -/
theorem gsi_some_mem {k : String} {info : String × String}
    (h : get_system_info k = some info) : info ∈ SYSTEMS := by
  unfold get_system_info at h
  cases h1 : SYSTEMS.find? (fun p => p.1 == k) with
  | some p =>
    rw [h1] at h
    have hm := List.mem_of_find?_eq_some h1
    have he : p.1 = k := by simpa using List.find?_some h1
    simp at h
    rw [← h, ← he]
    exact hm
  | none =>
    rw [h1] at h
    cases h2 : SYSTEMS.find? (fun p => normalize_system_key p.1 == normalize_system_key k) with
    | some p =>
      rw [h2] at h; simp at h
      rw [← h]; exact List.mem_of_find?_eq_some h2
    | none =>
      rw [h2] at h
      cases h3 : (sortByLenDesc SYSTEMS).find?
          (containment_key_matches (normalize_system_key k)) with
      | some p =>
        rw [h3] at h; simp at h
        rw [← h]
        exact mem_sortByLenDesc.mp (List.mem_of_find?_eq_some h3)
      | none => rw [h3] at h; simp at h

/-- If all three tiers fail for `k`, they also fail for `lower(k)`: tier 1
for `lower(k)` would be a tier-2 hit for `k`, and tiers 2 and 3 only
depend on `lower(k)`, which `lower` leaves fixed. -/
theorem gsi_lower_none {k : String} (h : get_system_info k = none) :
    get_system_info (pyLowerS k) = none := by
  unfold get_system_info at h
  have h1 : SYSTEMS.find? (fun p => p.1 == k) = none := by
    cases hx : SYSTEMS.find? (fun p => p.1 == k) with
    | none => rfl
    | some p => rw [hx] at h; simp at h
  rw [h1] at h
  have h2 : SYSTEMS.find?
      (fun p => normalize_system_key p.1 == normalize_system_key k) = none := by
    cases hx : SYSTEMS.find?
        (fun p => normalize_system_key p.1 == normalize_system_key k) with
    | none => rfl
    | some p => rw [hx] at h; simp at h
  rw [h2] at h
  have h3 : (sortByLenDesc SYSTEMS).find?
      (containment_key_matches (normalize_system_key k)) = none := by
    cases hx : (sortByLenDesc SYSTEMS).find?
        (containment_key_matches (normalize_system_key k)) with
    | none => rfl
    | some p => rw [hx] at h; simp at h
  have h2' := List.find?_eq_none.mp h2
  unfold get_system_info
  have g1 : SYSTEMS.find? (fun p => p.1 == pyLowerS k) = none := by
    apply List.find?_eq_none.mpr
    intro p hp
    simp only [beq_iff_eq]
    intro he
    have hb : (normalize_system_key p.1 == normalize_system_key k) = true := by
      simp only [normalize_system_key, he, beq_iff_eq]
      exact pyLowerS_idem k
    exact absurd hb (h2' p hp)
  rw [g1]
  have hfix : normalize_system_key (pyLowerS k) = normalize_system_key k := by
    simp only [normalize_system_key]
    exact pyLowerS_idem k
  have g2 : SYSTEMS.find?
      (fun p => normalize_system_key p.1 == normalize_system_key (pyLowerS k)) = none := by
    rw [hfix]; exact h2
  rw [g2, hfix, h3]

/-- For a canonical key `c` of `SYSTEMS`, resolving `lower(c)` hits tier 1
or tier 2 and returns a pair whose key lowercases to `lower(c)`. -/
theorem gsi_lower_of_mem {info : String × String} (hm : info ∈ SYSTEMS) :
    ∃ q : String × String, get_system_info (pyLowerS info.1) = some q ∧
      pyLowerS q.1 = pyLowerS info.1 := by
  unfold get_system_info
  cases h1 : SYSTEMS.find? (fun p => p.1 == pyLowerS info.1) with
  | some p =>
    refine ⟨(pyLowerS info.1, p.2), rfl, ?_⟩
    exact pyLowerS_idem _
  | none =>
    have hex : ∃ p ∈ SYSTEMS,
        (normalize_system_key p.1 == normalize_system_key (pyLowerS info.1)) = true := by
      refine ⟨info, hm, ?_⟩
      simp only [normalize_system_key, beq_iff_eq]
      exact (pyLowerS_idem info.1).symm
    have hsome := List.find?_isSome.mpr hex
    cases h2 : SYSTEMS.find?
        (fun p => normalize_system_key p.1 == normalize_system_key (pyLowerS info.1)) with
    | none => rw [h2] at hsome; simp at hsome
    | some q =>
      refine ⟨q, rfl, ?_⟩
      have := List.find?_some h2
      simp only [normalize_system_key, beq_iff_eq] at this
      rw [this]
      exact pyLowerS_idem info.1

theorem takeWhile_append_stop {p : Char → Bool} {a : List Char}
    (ha : ∀ x ∈ a, p x = true) {c : Char} (hc : p c = false) (b : List Char) :
    (a ++ c :: b).takeWhile p = a := by
  induction a with
  | nil => simp [List.takeWhile, hc]
  | cons x xs ih =>
    have hx := ha x (by simp)
    simp only [List.cons_append, List.takeWhile_cons, hx, if_true]
    rw [ih (fun y hy => ha y (by simp [hy]))]

/-- The canonical key returned by `get_system_info` normalizes to its own
lowercasing (tier 1 hits, whatever value the table pairs it with). -/
theorem norm_canonical {k : String} {info : String × String}
    (h : get_system_info k = some info) :
    normalize_system_for_dedup info.1 = pyLowerS info.1 := by
  have hm : info ∈ SYSTEMS := gsi_some_mem h
  have hex : ∃ p ∈ SYSTEMS, (p.1 == info.1) = true := ⟨info, hm, by simp⟩
  have hsome := List.find?_isSome.mpr hex
  unfold normalize_system_for_dedup get_system_info
  cases h1 : SYSTEMS.find? (fun p => p.1 == info.1) with
  | none => rw [h1] at hsome; simp at hsome
  | some p => rfl

/-! ### Helper lemmas: the dedup engine's seen-map -/

theorem copy_rom_seen (st : CState) (rom : Rom) : (copy_rom st rom).seen = st.seen := by
  unfold copy_rom
  split
  · rfl
  · split <;> rfl

theorem copy_rom_opts (st : CState) (rom : Rom) : (copy_rom st rom).opts = st.opts := by
  unfold copy_rom
  split
  · rfl
  · split <;> rfl

theorem processRom_opts (st : CState) (rom : Rom) :
    (processRom st rom).opts = st.opts := by
  unfold processRom
  cases classify st rom <;> simp [copy_rom_opts]

theorem processRoms_opts (ms : List Rom) (st : CState) :
    (processRoms st ms).opts = st.opts := by
  induction ms generalizing st with
  | nil => rfl
  | cons m ms ih =>
    simp only [processRoms, List.foldl_cons]
    rw [show List.foldl processRom (processRom st m) ms
      = processRoms (processRom st m) ms from rfl, ih, processRom_opts]

theorem find?_map_overwrite_hit (k' : String × String) (v' : SeenVal) :
    ∀ m : List ((String × String) × SeenVal),
    m.any (fun e => e.1 == k') = true →
    (m.map (fun e => if e.1 == k' then (k', v') else e)).find? (fun e => e.1 == k')
      = some (k', v') := by
  intro m
  induction m with
  | nil => simp
  | cons a as ih =>
    intro hany
    by_cases ha : (a.1 == k') = true
    · simp only [List.map_cons, if_pos ha]
      rw [List.find?_cons_of_pos _ (by simp)]
    · simp only [List.map_cons, if_neg ha]
      rw [List.find?_cons_of_neg _ (by simpa using ha)]
      apply ih
      rcases List.any_eq_true.mp hany with ⟨e, he, hc⟩
      rcases List.mem_cons.mp he with h | h
      · exact absurd (h ▸ hc) ha
      · exact List.any_eq_true.mpr ⟨e, h, hc⟩

theorem find?_map_overwrite_miss {k k' : String × String} (v' : SeenVal)
    (hk : k ≠ k') :
    ∀ m : List ((String × String) × SeenVal),
    (m.map (fun e => if e.1 == k' then (k', v') else e)).find? (fun e => e.1 == k)
      = m.find? (fun e => e.1 == k) := by
  intro m
  induction m with
  | nil => simp
  | cons a as ih =>
    by_cases ha : (a.1 == k') = true
    · have ha' : a.1 = k' := by simpa using ha
      simp only [List.map_cons, if_pos ha]
      rw [List.find?_cons_of_neg _ (by simp [Ne.symm hk]),
          List.find?_cons_of_neg _ (by simp [ha', Ne.symm hk])]
      exact ih
    · simp only [List.map_cons, if_neg ha]
      by_cases hak : (a.1 == k) = true
      · simp only [List.find?, hak]
      · simp only [List.find?, hak]
        exact ih

theorem seenLookup_insert (m : List ((String × String) × SeenVal))
    (k k' : String × String) (v' : SeenVal) :
    seenLookup (seenInsert m k' v') k = if k = k' then some v' else seenLookup m k := by
  by_cases hk : k = k'
  · subst hk
    simp only [if_pos rfl]
    unfold seenInsert
    by_cases hany : m.any (fun e => e.1 == k) = true
    · rw [if_pos hany]
      unfold seenLookup
      rw [find?_map_overwrite_hit k v' m hany]
      rfl
    · rw [if_neg hany]
      unfold seenLookup
      rw [List.find?_append]
      have hnone : m.find? (fun e => e.1 == k) = none := by
        apply List.find?_eq_none.mpr
        intro e he hc
        exact hany (List.any_eq_true.mpr ⟨e, he, hc⟩)
      rw [hnone]
      simp
  · rw [if_neg hk]
    unfold seenInsert
    by_cases hany : m.any (fun e => e.1 == k') = true
    · rw [if_pos hany]
      unfold seenLookup
      rw [find?_map_overwrite_miss v' hk m]
    · rw [if_neg hany]
      unfold seenLookup
      rw [List.find?_append]
      have h2 : List.find? (fun e => e.1 == k) [(k', v')] = none := by
        rw [List.find?_eq_none]
        intro x hx
        simp at hx
        simp [hx, Ne.symm hk]
      rw [h2]
      cases m.find? (fun e => e.1 == k) <;> rfl

theorem processRom_dup (st : CState) (r : Rom) (o : Rom)
    (h : classify st r = .dupInput o) :
    processRom st r
      = { st with
          skipped_duplicates := st.skipped_duplicates + 1
          duplicate_files := st.duplicate_files
            ++ [(r.system_key, r.filename, o.filename)] } := by
  unfold processRom
  rw [h]

theorem classify_new_lookup {st : CState} {r : Rom} (h : classify st r = .new) :
    seenLookup st.seen r.full_key = none := by
  unfold classify at h
  by_cases ha : is_system_allowed st.opts r.system_key = true
  · rw [if_neg (by simp [ha])] at h
    cases hl : seenLookup st.seen r.full_key with
    | none => rfl
    | some v => rw [hl] at h; cases v <;> simp at h
  · rw [if_pos (by simpa using ha)] at h
    simp at h

/-- Once a key is in the seen-map with some value, no later processed ROM
changes that entry: the only insertion happens on a `new` classification,
whose key was absent. -/
theorem processRom_seen_preserve {st : CState} {key : String × String} {v : SeenVal}
    (h : seenLookup st.seen key = some v) (r : Rom) :
    seenLookup (processRom st r).seen key = some v := by
  cases hc : classify st r with
  | filtered => unfold processRom; rw [hc]; exact h
  | existsOut f => unfold processRom; rw [hc]; exact h
  | dupInput o => unfold processRom; rw [hc]; exact h
  | new =>
    unfold processRom
    rw [hc]
    simp only [copy_rom_seen]
    rw [seenLookup_insert]
    have hne : key ≠ r.full_key := by
      intro he
      rw [he, classify_new_lookup hc] at h
      exact Option.noConfusion h
    rw [if_neg hne]
    exact h

theorem processRoms_seen_preserve {st : CState} {key : String × String} {v : SeenVal}
    (h : seenLookup st.seen key = some v) (ms : List Rom) :
    seenLookup (processRoms st ms).seen key = some v := by
  induction ms generalizing st with
  | nil => exact h
  | cons m ms ih =>
    simp only [processRoms, List.foldl_cons]
    exact ih (processRom_seen_preserve h m)

/-- `newCount` unfolding on a cons. -/
theorem newCount_cons (st : CState) (r : Rom) (rs : List Rom) (k : String × String) :
    newCount st (r :: rs) k
      = newCount (processRom st r) rs k
        + (if classify st r = .new ∧ r.full_key = k then 1 else 0) := by
  unfold newCount
  rw [show runTrace st (r :: rs) = classify st r :: runTrace (processRom st r) rs
    from rfl]
  rw [List.zip_cons_cons, List.countP_cons]
  congr 1
  by_cases h : classify st r = .new ∧ r.full_key = k
  · rw [if_pos h]
    simp [h.1, h.2]
  · rw [if_neg h]
    have hb : ((classify st r == Outcome.new) && (r.full_key == k)) = false := by
      by_contra hx
      simp at hx
      exact h ⟨hx.1, hx.2⟩
    simp [hb]

/-- After the key is present in the seen-map, no ROM with that key is ever
again classified `new`. -/
theorem newCount_zero_of_seen {st : CState} {k : String × String} {v : SeenVal}
    (h : seenLookup st.seen k = some v) (rs : List Rom) :
    newCount st rs k = 0 := by
  induction rs generalizing st v with
  | nil => rfl
  | cons r rs ih =>
    rw [newCount_cons]
    have hz : ¬(classify st r = .new ∧ r.full_key = k) := by
      rintro ⟨hc, hk⟩
      rw [← hk] at h
      rw [classify_new_lookup hc] at h
      exact Option.noConfusion h
    rw [if_neg hz, ih (processRom_seen_preserve h r)]

/-- For any run and any composite key, at most one ROM with that key is
classified `new` (accepted). -/
theorem newCount_le_one (st : CState) (rs : List Rom) (k : String × String) :
    newCount st rs k ≤ 1 := by
  induction rs generalizing st with
  | nil => simp [newCount, runTrace]
  | cons r rs ih =>
    rw [newCount_cons]
    by_cases h : classify st r = .new ∧ r.full_key = k
    · rw [if_pos h]
      have hseen : seenLookup (processRom st r).seen k = some (.inputRom r) := by
        unfold processRom
        rw [h.1]
        simp only [copy_rom_seen]
        rw [seenLookup_insert, if_pos h.2.symm]
      rw [newCount_zero_of_seen hseen]
    · rw [if_neg h]
      simpa using ih (processRom st r)

/-! ### Helper lemmas: the normalizer scanners -/

theorem ws_of_digit {c : Char} (h : isDigitChar c = true) : isWsChar c = false := by
  cases hc : isWsChar c
  · rfl
  · exfalso
    simp only [isWsChar, decide_eq_true_eq] at hc
    rcases hc with h1 | h1 | h1 | h1 | h1 | h1 <;>
      (subst h1; exact absurd h (by decide))

theorem digit_ne_paren {c : Char} (h : isDigitChar c = true) : c ≠ '(' := by
  intro he; subst he; exact absurd h (by decide)

theorem digit_ne_bracket {c : Char} (h : isDigitChar c = true) : c ≠ '[' := by
  intro he; subst he; exact absurd h (by decide)

/-- Equation lemmas for `parse_game_filename`'s fields. -/
theorem parse_base_eq (f : String) : (parse_game_filename f).base_name
    = ⟨pyStrip (collapseWs (removeGroups '[' ']'
        (removeGroups '(' ')' (stripPrefix3 (pathStem f.data)))))⟩ := rfl

theorem parse_clean_eq (f : String) : (parse_game_filename f).clean_filename
    = ⟨stripPrefix3 (pathStem f.data) ++ pathSuffix f.data⟩ := rfl

theorem parse_base_data_eq (f : String) : (parse_game_filename f).base_name.data
    = pyStrip (collapseWs (removeGroups '[' ']'
        (removeGroups '(' ')' (stripPrefix3 (pathStem f.data))))) := by
  rw [parse_base_eq]

theorem parse_region_eq (f : String) : (parse_game_filename f).region
    = (classifyParens (findParens (stripPrefix3 (pathStem f.data)))).1.head?.map
        (fun r => (⟨r⟩ : String)) := rfl

theorem parse_version_eq (f : String) : (parse_game_filename f).version
    = (if (classifyParens (findParens (stripPrefix3 (pathStem f.data)))).2.isEmpty
        then none
        else some ⟨joinDash
          (classifyParens (findParens (stripPrefix3 (pathStem f.data)))).2⟩) := rfl

/-- One-step equations for the scanners (definitional). -/
theorem stripPrefix3_cons4 (d1 d2 d3 c : Char) (rest : List Char) :
    stripPrefix3 (d1 :: d2 :: d3 :: c :: rest)
      = if isDigitChar d1 = true ∧ isDigitChar d2 = true ∧ isDigitChar d3 = true
          ∧ isWsChar c = true then
          rest.dropWhile isWsChar
        else d1 :: d2 :: d3 :: c :: rest := rfl

theorem rgAux_normal_cons (op cl c : Char) (l : List Char) :
    rgAux op cl .normal (c :: l)
      = if rgMatchesAt op cl (c :: l) then
          if c = op then rgAux op cl .toClose l else rgAux op cl .toOpen l
        else c :: rgAux op cl .normal l := rfl

theorem rgAux_toOpen_cons (op cl c : Char) (l : List Char) :
    rgAux op cl .toOpen (c :: l)
      = if c = op then rgAux op cl .toClose l else rgAux op cl .toOpen l := rfl

theorem rgAux_toClose_cons (op cl c : Char) (l : List Char) :
    rgAux op cl .toClose (c :: l)
      = if c = cl then rgAux op cl .normal l else rgAux op cl .toClose l := rfl

theorem cwAux_cons (b : Bool) (c : Char) (l : List Char) :
    cwAux b (c :: l)
      = if isWsChar c then
          (if b then cwAux true l else ' ' :: cwAux true l)
        else c :: cwAux false l := rfl

theorem findParensAux_none_cons (c : Char) (l : List Char) :
    findParensAux none (c :: l)
      = if c = '(' then findParensAux (some []) l else findParensAux none l := rfl

theorem findParensAux_some_cons (acc : List Char) (c : Char) (l : List Char) :
    findParensAux (some acc) (c :: l)
      = if c = ')' then
          (if acc.isEmpty then findParensAux none l else acc :: findParensAux none l)
        else findParensAux (some (acc ++ [c])) l := rfl

/-- A stem starting with four digits is not touched by the prefix strip. -/
theorem stripPrefix3_four_digits {d1 d2 d3 d4 : Char} {rest : List Char}
    (h1 : isDigitChar d1 = true) (h2 : isDigitChar d2 = true)
    (h3 : isDigitChar d3 = true) (h4 : isDigitChar d4 = true) :
    stripPrefix3 (d1 :: d2 :: d3 :: d4 :: rest) = d1 :: d2 :: d3 :: d4 :: rest := by
  rw [stripPrefix3_cons4, if_neg]
  rintro ⟨-, -, -, hw⟩
  rw [ws_of_digit h4] at hw
  exact Bool.false_ne_true hw

/-- A non-whitespace, non-opener head is copied by the group scanner. -/
theorem rgAux_cons_plain {op cl c : Char} {l : List Char}
    (hw : isWsChar c = false) (ho : c ≠ op) :
    rgAux op cl .normal (c :: l) = c :: rgAux op cl .normal l := by
  have hm : rgMatchesAt op cl (c :: l) = false := by
    unfold rgMatchesAt
    rw [List.dropWhile_cons_of_neg (by simp [hw])]
    simp [ho]
  rw [rgAux_normal_cons, hm]
  simp

theorem rgAux_append_plain {op cl : Char} {a : List Char}
    (ha : ∀ c ∈ a, isWsChar c = false ∧ c ≠ op) (l : List Char) :
    rgAux op cl .normal (a ++ l) = a ++ rgAux op cl .normal l := by
  induction a with
  | nil => rfl
  | cons x xs ih =>
    have hx := ha x (by simp)
    rw [List.cons_append, rgAux_cons_plain hx.1 hx.2,
        ih (fun c hc => ha c (by simp [hc]))]
    rfl

theorem removeGroups_append_plain {op cl : Char} {a : List Char}
    (ha : ∀ c ∈ a, isWsChar c = false ∧ c ≠ op) (l : List Char) :
    removeGroups op cl (a ++ l) = a ++ removeGroups op cl l :=
  rgAux_append_plain ha l

/-- A non-whitespace head is copied by the whitespace collapser. -/
theorem cwAux_cons_plain {c : Char} {l : List Char} (hw : isWsChar c = false)
    (b : Bool) : cwAux b (c :: l) = c :: cwAux false l := by
  rw [cwAux_cons, hw]
  simp

theorem cwAux_append_plain {a : List Char}
    (ha : ∀ c ∈ a, isWsChar c = false) (l : List Char) :
    cwAux false (a ++ l) = a ++ cwAux false l := by
  induction a with
  | nil => rfl
  | cons x xs ih =>
    rw [List.cons_append, cwAux_cons_plain (ha x (by simp)),
        ih (fun c hc => ha c (by simp [hc]))]
    rfl

theorem collapseWs_append_plain {a : List Char}
    (ha : ∀ c ∈ a, isWsChar c = false) (l : List Char) :
    collapseWs (a ++ l) = a ++ collapseWs l :=
  cwAux_append_plain ha l

theorem dropWhile_append_cases (p : Char → Bool) (a b : List Char) :
    (a ++ b).dropWhile p
      = if (a.dropWhile p).isEmpty then b.dropWhile p else a.dropWhile p ++ b := by
  induction a with
  | nil => simp
  | cons x xs ih =>
    by_cases hx : p x = true
    · rw [List.cons_append, List.dropWhile_cons_of_pos hx,
          List.dropWhile_cons_of_pos hx, ih]
    · rw [List.cons_append, List.dropWhile_cons_of_neg (by simp [hx]),
          List.dropWhile_cons_of_neg (by simp [hx])]
      simp

/-- Stripping whitespace from both ends keeps a leading non-whitespace,
non-empty run intact. -/
theorem pyStrip_append_keep {a : List Char} (hne : a ≠ [])
    (ha : ∀ c ∈ a, isWsChar c = false) (l : List Char) :
    ∃ t, pyStrip (a ++ l) = a ++ t := by
  unfold pyStrip
  have h1 : (a ++ l).dropWhile isWsChar = a ++ l := by
    cases a with
    | nil => exact absurd rfl hne
    | cons x xs =>
      rw [List.cons_append,
          List.dropWhile_cons_of_neg (by simp [ha x (by simp)])]
  rw [h1, List.reverse_append, dropWhile_append_cases]
  have h2 : a.reverse.dropWhile isWsChar = a.reverse := by
    cases hr : a.reverse with
    | nil => simp
    | cons y ys =>
      have hy : y ∈ a := by
        have : y ∈ a.reverse := by rw [hr]; simp
        simpa using this
      rw [List.dropWhile_cons_of_neg (by simp [ha y hy])]
  by_cases hcase : (l.reverse.dropWhile isWsChar).isEmpty = true
  · rw [if_pos hcase, h2]
    exact ⟨[], by simp⟩
  · rw [if_neg hcase]
    exact ⟨(l.reverse.dropWhile isWsChar).reverse, by simp⟩

theorem isPrefixOf_append_self (a t : List Char) : a.isPrefixOf (a ++ t) = true := by
  induction a with
  | nil => simp [List.isPrefixOf]
  | cons x xs ih => simpa [List.isPrefixOf] using ih

theorem getLast?_cons_ne_nil {c : Char} {b' : List Char} (h : b' ≠ []) :
    (c :: b').getLast? = b'.getLast? := by
  cases b' with
  | nil => exact absurd rfl h
  | cons y ys => exact List.getLast?_cons_cons

/-- The group-content scanner: `findParensAux` inside a group consumes the
closer-free content and emits it. -/
theorem findParensAux_inside (t : List Char) :
    ∀ (r acc : List Char), ')' ∉ r →
    findParensAux (some acc) (r ++ ')' :: t)
      = if (acc ++ r).isEmpty then findParensAux none t
        else (acc ++ r) :: findParensAux none t := by
  intro r
  induction r with
  | nil =>
    intro acc _
    rw [List.nil_append, findParensAux_some_cons, if_pos rfl]
    simp
  | cons c r' ih =>
    intro acc hc
    have hcne : c ≠ ')' := fun he => hc (by simp [he])
    rw [List.cons_append, findParensAux_some_cons, if_neg hcne,
        ih (acc ++ [c]) (fun hm => hc (by simp [hm]))]
    simp

theorem findParensAux_none_append {a : List Char} (ha : ∀ c ∈ a, c ≠ '(')
    (l : List Char) : findParensAux none (a ++ l) = findParensAux none l := by
  induction a with
  | nil => rfl
  | cons x xs ih =>
    rw [List.cons_append, findParensAux_none_cons, if_neg (ha x (by simp))]
    exact ih (fun c hc => ha c (by simp [hc]))

/-- `findall(r'\(([^)]+)\)')` on `b ++ " (" ++ r ++ ")"` with a
parenthesis-free title `b` and closer-free non-empty region `r` captures
exactly `r`. -/
theorem findParens_title_region {b r : List Char} (hb : ∀ c ∈ b, c ≠ '(')
    (hr : ')' ∉ r) (hne : r ≠ []) :
    findParens (b ++ ' ' :: '(' :: (r ++ [')'])) = [r] := by
  unfold findParens
  rw [show (b ++ ' ' :: '(' :: (r ++ [')'])) = (b ++ [' ']) ++ '(' :: (r ++ [')'])
    from by simp]
  rw [findParensAux_none_append (by
    intro c hc
    rcases List.mem_append.mp hc with h | h
    · exact hb c h
    · simp at h
      subst h
      decide)]
  rw [findParensAux_none_cons, if_pos rfl]
  rw [show (r ++ [')'] : List Char) = r ++ ')' :: [] from rfl]
  rw [findParensAux_inside [] r [] hr]
  simp only [List.nil_append, List.isEmpty_eq_true, hne, if_false]
  rfl

/-- The group remover in the closing-skip state drops the closer-free
content and the closer itself. -/
theorem rgAux_toClose_run {op : Char} (t : List Char) :
    ∀ r : List Char, ')' ∉ r →
    rgAux op ')' .toClose (r ++ ')' :: t) = rgAux op ')' .normal t := by
  intro r
  induction r with
  | nil =>
    intro _
    rw [List.nil_append, rgAux_toClose_cons, if_pos rfl]
  | cons c r' ih =>
    intro hc
    rw [List.cons_append, rgAux_toClose_cons,
        if_neg (fun he => hc (by simp [he]))]
    exact ih (fun hm => hc (by simp [hm]))

/-- A list without the opener is left unchanged by the group remover. -/
theorem rgAux_no_open {op cl : Char} :
    ∀ l : List Char, (∀ c ∈ l, c ≠ op) → rgAux op cl .normal l = l := by
  intro l
  induction l with
  | nil => intro _; rfl
  | cons c rest ih =>
    intro ha
    have hm : rgMatchesAt op cl (c :: rest) = false := by
      unfold rgMatchesAt
      cases hd : (c :: rest).dropWhile isWsChar with
      | nil => rfl
      | cons o r2 =>
        have ho : o ∈ c :: rest := by
          have hsub := List.dropWhile_sublist (l := c :: rest) isWsChar
          rw [hd] at hsub
          exact hsub.mem (by simp)
        simp [ha o ho]
    rw [rgAux_normal_cons, hm]
    simp only [Bool.false_eq_true, if_false]
    rw [ih (fun x hx => ha x (by simp [hx]))]

theorem removeGroups_no_open {op cl : Char} {l : List Char}
    (ha : ∀ c ∈ l, c ≠ op) : removeGroups op cl l = l :=
  rgAux_no_open l ha

/-- Removing `\s*\(...\)` groups from `title ++ " (" ++ region ++ ")"`
leaves exactly the title, provided the title has no `(`, does not end in
whitespace, and the region has no `)`. -/
theorem removeGroups_title_region :
    ∀ b : List Char, (∀ c ∈ b, c ≠ '(') →
    (∀ c, b.getLast? = some c → isWsChar c = false) →
    ∀ r : List Char, ')' ∉ r →
    removeGroups '(' ')' (b ++ ' ' :: '(' :: (r ++ [')'])) = b := by
  intro b
  induction b with
  | nil =>
    intro _ _ r hr
    unfold removeGroups
    have hm : rgMatchesAt '(' ')' (' ' :: '(' :: (r ++ [')'])) = true := by
      unfold rgMatchesAt
      rw [List.dropWhile_cons_of_pos (by decide),
          List.dropWhile_cons_of_neg (by decide)]
      simp
    rw [List.nil_append, rgAux_normal_cons, hm]
    rw [if_pos rfl, if_neg (by decide), rgAux_toOpen_cons, if_pos rfl,
        rgAux_toClose_run [] r hr]
    rfl
  | cons c b' ih =>
    intro hbc hbl r hr
    by_cases hw : isWsChar c = true
    · -- inside-title whitespace: the run is followed by a non-ws title char
      have hb'ne : b' ≠ [] := by
        rintro rfl
        exact Bool.false_ne_true ((hbl c rfl).symm.trans hw)
      have hlast : ∀ x, b'.getLast? = some x → isWsChar x = false := by
        intro x hx
        apply hbl
        rwa [getLast?_cons_ne_nil hb'ne]
      have hnws : ∃ x ∈ b', isWsChar x = false := by
        cases hb'l : b'.getLast? with
        | none => exact absurd (List.getLast?_eq_none_iff.mp hb'l) hb'ne
        | some y =>
          exact ⟨y, List.mem_of_getLast?_eq_some hb'l, hlast y hb'l⟩
      have hdne : b'.dropWhile isWsChar ≠ [] := by
        intro hnil
        obtain ⟨x, hx, hxw⟩ := hnws
        have := List.dropWhile_eq_nil_iff.mp hnil x hx
        rw [hxw] at this
        exact Bool.false_ne_true this
      have hm : rgMatchesAt '(' ')'
          (c :: (b' ++ ' ' :: '(' :: (r ++ [')']))) = false := by
        unfold rgMatchesAt
        rw [List.dropWhile_cons_of_pos hw, dropWhile_append_cases,
            if_neg (by simpa using hdne)]
        cases hd : b'.dropWhile isWsChar with
        | nil => exact absurd hd hdne
        | cons o r2 =>
          have ho : o ∈ b' := by
            have hsub := List.dropWhile_sublist (l := b') isWsChar
            rw [hd] at hsub
            exact hsub.mem (by simp)
          simp [hbc o (by simp [ho])]
      unfold removeGroups at *
      rw [List.cons_append, rgAux_normal_cons, hm]
      simp only [Bool.false_eq_true, if_false]
      rw [ih (fun x hx => hbc x (by simp [hx])) hlast r hr]
    · -- plain title character
      have hco : c ≠ '(' := hbc c (by simp)
      unfold removeGroups at *
      rw [List.cons_append,
          rgAux_cons_plain (by simpa using hw) hco]
      by_cases hb' : b' = []
      · subst hb'
        rw [ih (by simp) (by simp) r hr]
      · rw [ih (fun x hx => hbc x (by simp [hx]))
            (fun x hx => hbl x (by rwa [getLast?_cons_ne_nil hb'])) r hr]

/-- Classification of a single region-classified parenthetical group. -/
theorem classifyParens_single_region {r : List Char} (hs : pyStrip r = r)
    (hr : isRegionText r = true) : classifyParens [r] = ([r], []) := by
  unfold classifyParens
  simp [hs, hr]

/-- `dedup_key` reads only `base_name`, `region` and `version`. -/
theorem dedup_key_congr {g1 g2 : GameInfo} (hb : g1.base_name = g2.base_name)
    (hr : g1.region = g2.region) (hv : g1.version = g2.version) :
    g1.dedup_key = g2.dedup_key := by
  unfold GameInfo.dedup_key
  rw [hb, hr, hv]

/-- The dedup key of a record with a (non-empty) region and no version. -/
theorem dedup_key_region_only {g : GameInfo} {r : String} (hr : g.region = some r)
    (hne : r ≠ "") (hv : g.version = none) :
    g.dedup_key = pyLowerS g.base_name ++ "|" ++ pyLowerS r := by
  unfold GameInfo.dedup_key
  rw [hr, hv]
  simp [hne]
  rfl

theorem rom_dedup_key_eq (f s : String) :
    Rom.dedup_key { filename := f, system_key := s } = get_dedup_key f := rfl

/-- The dedup key is a function of the prefix-stripped stem alone. -/
theorem dedup_key_of_clean {f1 f2 : String}
    (h : stripPrefix3 (pathStem f1.data) = stripPrefix3 (pathStem f2.data)) :
    get_dedup_key f1 = get_dedup_key f2 := by
  unfold get_dedup_key
  apply dedup_key_congr
  · rw [parse_base_eq, parse_base_eq, h]
  · rw [parse_region_eq, parse_region_eq, h]
  · rw [parse_version_eq, parse_version_eq, h]

/-- Stripping a three-digit prefix whose whitespace run is
`w0 :: w` (all whitespace) leaves `r.dropWhile isWsChar`. -/
theorem stripPrefix3_run {a1 a2 a3 w0 : Char} {w r : List Char}
    (h1 : isDigitChar a1 = true) (h2 : isDigitChar a2 = true)
    (h3 : isDigitChar a3 = true) (hw0 : isWsChar w0 = true)
    (hw : ∀ c ∈ w, isWsChar c = true) :
    stripPrefix3 (a1 :: a2 :: a3 :: w0 :: (w ++ r)) = r.dropWhile isWsChar := by
  rw [stripPrefix3_cons4, if_pos ⟨h1, h2, h3, hw0⟩, dropWhile_append_cases,
      if_pos (by simpa using List.dropWhile_eq_nil_iff.mpr hw)]

/-! ## Claims -/

/-- C1 counterexample: for a canonical system key that itself contains a
hyphen (`snes-msu1`), the output-folder scan truncates the seeded key at
the first hyphen, so re-running consolidation classifies the same file as
new, not as already existing: `skipped_existing` stays 0 (the file is
still not copied again, because the destination exists and the copy is
silently skipped). -/
theorem C1_counterexample_hyphen_canonical_key :
    get_system_info "snes-msu1" = some ("snes-msu1", "SNES with MSU-1 enhancement") ∧
    normalize_system_for_dedup "snes-msu1" = "snes-msu1" ∧
    get_output_folder_name "snes-msu1" = exHyphenFolder ∧
    (consolidate {} exHyphenOutput [exHyphenRom]).skipped_existing = 0 ∧
    (consolidate {} exHyphenOutput [exHyphenRom]).skipped_duplicates = 0 ∧
    (consolidate {} exHyphenOutput [exHyphenRom]).copied = 0 := by
  refine ⟨?_, ?_, ?_, ?_, ?_, ?_⟩ <;> decide

/-- C1 (amended): for every canonical system key whose shorthand contains
no hyphen, if the output directory already contains the system's folder
holding file F, then seeding the seen-set from that output makes a
consolidation run classify an input file with the same filename and a
system key resolving to the same canonical key as already existing:
`skipped_existing` is incremented, the file is not copied again, and
`skipped_duplicates` is unchanged.  (Keys containing a hyphen are
truncated by the output scan and fail this — see the counterexample.) -/
theorem C1_incremental_rerun_roundtrip (k k' F : String) (info : String × String)
    (hk : get_system_info k = some info)
    (hnh : ∀ ch ∈ info.1.data, (ch ≠ '-' : Bool) = true)
    (hk' : normalize_system_for_dedup k' = pyLowerS info.1)
    (hF : F.data.head? ≠ some '.') :
    (consolidate {} [(get_output_folder_name k, [F])]
        [{ filename := F, system_key := k' }]).skipped_existing = 1 ∧
    (consolidate {} [(get_output_folder_name k, [F])]
        [{ filename := F, system_key := k' }]).skipped_duplicates = 0 ∧
    (consolidate {} [(get_output_folder_name k, [F])]
        [{ filename := F, system_key := k' }]).copied = 0 ∧
    (consolidate {} [(get_output_folder_name k, [F])]
        [{ filename := F, system_key := k' }]).copied_files = [] ∧
    (consolidate {} [(get_output_folder_name k, [F])]
        [{ filename := F, system_key := k' }]).output
      = [(get_output_folder_name k, [F])] := by
  have hfold : get_output_folder_name k = info.1 ++ "-" ++ info.2 := by
    unfold get_output_folder_name
    rw [hk]
  have hdata : (info.1 ++ "-" ++ info.2).data = info.1.data ++ '-' :: info.2.data := by
    rw [String.data_append, String.data_append, List.append_assoc]
    rfl
  have htake : ((info.1 ++ "-" ++ info.2).data.takeWhile (fun c => c ≠ '-')) =
      info.1.data := by
    rw [hdata]
    exact takeWhile_append_stop hnh (by simp) _
  have hnorm := norm_canonical hk
  have hrun : consolidate {} [(get_output_folder_name k, [F])]
      [{ filename := F, system_key := k' }]
      = processRom (scan_existing_output
          { opts := {}, output := [(get_output_folder_name k, [F])] })
          { filename := F, system_key := k' } := rfl
  have hscan : scan_existing_output
      { opts := {}, output := [(get_output_folder_name k, [F])] }
      = { opts := {}, output := [(get_output_folder_name k, [F])],
          seen := [((pyLowerS info.1, (parse_game_filename F).dedup_key),
            SeenVal.existingFile F)],
          existing_files := [(info.1, F)] } := by
    unfold scan_existing_output
    simp only [List.foldl_cons, List.foldl_nil]
    rw [if_neg hF]
    unfold mark_existing
    simp only [hfold, htake]
    have : (⟨info.1.data⟩ : String) = info.1 := rfl
    rw [this, hnorm]
    rfl
  have hclass : classify (scan_existing_output
      { opts := {}, output := [(get_output_folder_name k, [F])] })
      { filename := F, system_key := k' } = .existsOut F := by
    rw [hscan]
    unfold classify
    simp only [is_system_allowed]
    unfold seenLookup Rom.full_key
    simp only [Rom.dedup_key, Rom.game_info, hk']
    simp [List.find?]
  rw [hrun]
  unfold processRom
  rw [hclass]
  rw [hscan]
  exact ⟨rfl, rfl, rfl, rfl, rfl⟩

/-- Witness for C1's amended theorem: canonical key `psp`, input spelled
`PSP`, file `Game (USA).bin`. -/
theorem C1_incremental_rerun_roundtrip_witness :
    (consolidate {} [(get_output_folder_name "psp", ["Game (USA).bin"])]
        [{ filename := "Game (USA).bin", system_key := "PSP" }]).skipped_existing
      = 1 ∧
    (consolidate {} [(get_output_folder_name "psp", ["Game (USA).bin"])]
        [{ filename := "Game (USA).bin", system_key := "PSP" }]).skipped_duplicates
      = 0 ∧
    (consolidate {} [(get_output_folder_name "psp", ["Game (USA).bin"])]
        [{ filename := "Game (USA).bin", system_key := "PSP" }]).copied = 0 ∧
    (consolidate {} [(get_output_folder_name "psp", ["Game (USA).bin"])]
        [{ filename := "Game (USA).bin", system_key := "PSP" }]).copied_files = [] ∧
    (consolidate {} [(get_output_folder_name "psp", ["Game (USA).bin"])]
        [{ filename := "Game (USA).bin", system_key := "PSP" }]).output
      = [(get_output_folder_name "psp", ["Game (USA).bin"])] :=
  C1_incremental_rerun_roundtrip "psp" "PSP" "Game (USA).bin"
    ("psp", "Sony PlayStation Portable") (by decide) (by decide) (by decide)
    (by decide)

/-- C2 counterexample: `USA` and `usa` are distinct region tokens (both
match the region pattern case-insensitively), yet `dedup_key` lowercases
the region, so filenames differing only in these two distinct region
tokens have EQUAL dedup keys. -/
theorem C2_counterexample_case_regions :
    isRegionText "USA".data = true ∧
    isRegionText "usa".data = true ∧
    "USA" ≠ "usa" ∧
    get_similarity_key "Game (USA).bin" = get_similarity_key "Game (usa).bin" ∧
    get_dedup_key "Game (USA).bin" = get_dedup_key "Game (usa).bin" := by
  refine ⟨by decide, by decide, by decide, by decide, by decide⟩

/-- C2 (amended): for two filenames sharing the same base title and
differing only in their region tokens — distinct up to case — the
similarity keys are equal and the dedup keys are distinct; consequently,
within one run and a fixed system, both files are independently accepted
(the run classifies both as new), while for any run and any composite key,
records with equal dedup key are accepted at most once. -/
theorem C2_region_variants_independent (b r1 r2 : List Char) (f1 f2 sys : String)
    (hbc : ∀ c ∈ b, c ≠ '(' ∧ c ≠ '[')
    (hbl : ∀ c, b.getLast? = some c → isWsChar c = false)
    (hreg1 : isRegionText r1 = true) (hreg2 : isRegionText r2 = true)
    (hstrip1 : pyStrip r1 = r1) (hstrip2 : pyStrip r2 = r2)
    (hcl1 : ')' ∉ r1) (hcl2 : ')' ∉ r2)
    (hne1 : r1 ≠ []) (hne2 : r2 ≠ [])
    (hlow : pyLowerL r1 ≠ pyLowerL r2)
    (hst1 : pathStem f1.data = b ++ ' ' :: '(' :: (r1 ++ [')']))
    (hst2 : pathStem f2.data = b ++ ' ' :: '(' :: (r2 ++ [')']))
    (hsp1 : stripPrefix3 (b ++ ' ' :: '(' :: (r1 ++ [')']))
      = b ++ ' ' :: '(' :: (r1 ++ [')']))
    (hsp2 : stripPrefix3 (b ++ ' ' :: '(' :: (r2 ++ [')']))
      = b ++ ' ' :: '(' :: (r2 ++ [')'])) :
    get_similarity_key f1 = get_similarity_key f2 ∧
    get_dedup_key f1 ≠ get_dedup_key f2 ∧
    runTrace { opts := {}, output := [] }
      [{ filename := f1, system_key := sys }, { filename := f2, system_key := sys }]
      = [.new, .new] ∧
    (∀ (st : CState) (roms : List Rom) (k : String × String),
      newCount st roms k ≤ 1) := by
  have hbparen : ∀ c ∈ b, c ≠ '(' := fun c hc => (hbc c hc).1
  have hbbrack : ∀ c ∈ b, c ≠ '[' := fun c hc => (hbc c hc).2
  have hkey1 : stripPrefix3 (pathStem f1.data) = b ++ ' ' :: '(' :: (r1 ++ [')']) := by
    rw [hst1]; exact hsp1
  have hkey2 : stripPrefix3 (pathStem f2.data) = b ++ ' ' :: '(' :: (r2 ++ [')']) := by
    rw [hst2]; exact hsp2
  have hbase1 : (parse_game_filename f1).base_name = ⟨pyStrip (collapseWs b)⟩ := by
    rw [parse_base_eq, hkey1, removeGroups_title_region b hbparen hbl r1 hcl1,
        removeGroups_no_open hbbrack]
  have hbase2 : (parse_game_filename f2).base_name = ⟨pyStrip (collapseWs b)⟩ := by
    rw [parse_base_eq, hkey2, removeGroups_title_region b hbparen hbl r2 hcl2,
        removeGroups_no_open hbbrack]
  have hfp1 : findParens (stripPrefix3 (pathStem f1.data)) = [r1] := by
    rw [hkey1]; exact findParens_title_region hbparen hcl1 hne1
  have hfp2 : findParens (stripPrefix3 (pathStem f2.data)) = [r2] := by
    rw [hkey2]; exact findParens_title_region hbparen hcl2 hne2
  have hregion1 : (parse_game_filename f1).region = some ⟨r1⟩ := by
    rw [parse_region_eq, hfp1, classifyParens_single_region hstrip1 hreg1]
    rfl
  have hregion2 : (parse_game_filename f2).region = some ⟨r2⟩ := by
    rw [parse_region_eq, hfp2, classifyParens_single_region hstrip2 hreg2]
    rfl
  have hver1 : (parse_game_filename f1).version = none := by
    rw [parse_version_eq, hfp1, classifyParens_single_region hstrip1 hreg1]
    rfl
  have hver2 : (parse_game_filename f2).version = none := by
    rw [parse_version_eq, hfp2, classifyParens_single_region hstrip2 hreg2]
    rfl
  have hrs1 : (⟨r1⟩ : String) ≠ "" := by
    intro he
    exact hne1 (by simpa using congrArg String.data he)
  have hrs2 : (⟨r2⟩ : String) ≠ "" := by
    intro he
    exact hne2 (by simpa using congrArg String.data he)
  have hdk1 : get_dedup_key f1
      = pyLowerS ⟨pyStrip (collapseWs b)⟩ ++ "|" ++ pyLowerS ⟨r1⟩ := by
    unfold get_dedup_key
    rw [dedup_key_region_only hregion1 hrs1 hver1, hbase1]
  have hdk2 : get_dedup_key f2
      = pyLowerS ⟨pyStrip (collapseWs b)⟩ ++ "|" ++ pyLowerS ⟨r2⟩ := by
    unfold get_dedup_key
    rw [dedup_key_region_only hregion2 hrs2 hver2, hbase2]
  have hdkne : get_dedup_key f1 ≠ get_dedup_key f2 := by
    rw [hdk1, hdk2]
    intro he
    apply hlow
    have hd := congrArg String.data he
    simp only [String.data_append] at hd
    exact List.append_cancel_left hd
  refine ⟨?_, hdkne, ?_, fun st roms k => newCount_le_one st roms k⟩
  · unfold get_similarity_key GameInfo.similarity_key
    rw [hbase1, hbase2]
  · have hc1 : classify { opts := {}, output := [] }
        { filename := f1, system_key := sys } = .new := rfl
    have hkne : Rom.full_key { filename := f1, system_key := sys }
        ≠ Rom.full_key { filename := f2, system_key := sys } := by
      unfold Rom.full_key
      rw [rom_dedup_key_eq, rom_dedup_key_eq]
      intro he
      rw [Prod.mk.injEq] at he
      exact hdkne he.2
    have hc2 : classify (processRom { opts := {}, output := [] }
          { filename := f1, system_key := sys })
        { filename := f2, system_key := sys } = .new := by
      unfold classify
      rw [if_neg (by
        rw [processRom_opts]
        simp [is_system_allowed])]
      have hl : seenLookup
          (processRom { opts := {}, output := [] }
            { filename := f1, system_key := sys }).seen
          (Rom.full_key { filename := f2, system_key := sys }) = none := by
        rw [show (processRom { opts := {}, output := [] }
            { filename := f1, system_key := sys }).seen
          = [((Rom.full_key { filename := f1, system_key := sys }),
              SeenVal.inputRom { filename := f1, system_key := sys })] from rfl]
        unfold seenLookup
        rw [List.find?_cons_of_neg _ (by simpa using hkne), List.find?_nil]
        rfl
      rw [hl]
    rw [show runTrace { opts := {}, output := [] }
        [{ filename := f1, system_key := sys }, { filename := f2, system_key := sys }]
      = classify { opts := {}, output := [] } { filename := f1, system_key := sys }
        :: classify (processRom { opts := {}, output := [] }
            { filename := f1, system_key := sys })
          { filename := f2, system_key := sys }
        :: [] from rfl]
    rw [hc1, hc2]

/-- Witness for C2's amended theorem: `Game (USA).bin` and
`Game (Europe).bin` on system `psp`. -/
theorem C2_region_variants_independent_witness :
    get_similarity_key "Game (USA).bin" = get_similarity_key "Game (Europe).bin" ∧
    get_dedup_key "Game (USA).bin" ≠ get_dedup_key "Game (Europe).bin" ∧
    runTrace { opts := {}, output := [] }
      [{ filename := "Game (USA).bin", system_key := "psp" },
       { filename := "Game (Europe).bin", system_key := "psp" }]
      = [.new, .new] ∧
    (∀ (st : CState) (roms : List Rom) (k : String × String),
      newCount st roms k ≤ 1) :=
  C2_region_variants_independent "Game".data "USA".data "Europe".data
    "Game (USA).bin" "Game (Europe).bin" "psp"
    (by decide) (by decide) (by decide) (by decide) (by decide) (by decide)
    (by decide) (by decide) (by decide) (by decide) (by decide) (by decide)
    (by decide) (by decide) (by decide)

/-- C3: `parse_game_filename` strips a leading prefix of exactly three
digits followed by one or more whitespace characters, and never strips a
longer leading digit run: for every filename whose stem begins with four
or more consecutive digits, the stem is untouched and the whole leading
digit run is kept as a prefix of `base_name`; in particular
`parse("1942.zip")` yields base_name `"1942"`. -/
theorem C3_three_digit_prefix_only :
    (parse_game_filename "1942.zip").base_name = "1942" ∧
    (∀ (f : String) (d1 d2 d3 c : Char) (rest : List Char),
      pathStem f.data = d1 :: d2 :: d3 :: c :: rest →
      isDigitChar d1 = true → isDigitChar d2 = true → isDigitChar d3 = true →
      isWsChar c = true →
      (parse_game_filename f).clean_filename
        = ⟨rest.dropWhile isWsChar ++ pathSuffix f.data⟩) ∧
    (∀ (f : String) (d1 d2 d3 d4 : Char) (rest : List Char),
      pathStem f.data = d1 :: d2 :: d3 :: d4 :: rest →
      isDigitChar d1 = true → isDigitChar d2 = true → isDigitChar d3 = true →
      isDigitChar d4 = true →
      (parse_game_filename f).clean_filename
        = ⟨pathStem f.data ++ pathSuffix f.data⟩ ∧
      ((pathStem f.data).takeWhile isDigitChar).isPrefixOf
        (parse_game_filename f).base_name.data = true) := by
  refine ⟨by decide, ?_, ?_⟩
  · intro f d1 d2 d3 c rest hstem h1 h2 h3 hw
    rw [parse_clean_eq, hstem, stripPrefix3_cons4, if_pos ⟨h1, h2, h3, hw⟩]
  · intro f d1 d2 d3 d4 rest hstem h1 h2 h3 h4
    have hstrip : stripPrefix3 (pathStem f.data) = pathStem f.data := by
      rw [hstem]; exact stripPrefix3_four_digits h1 h2 h3 h4
    constructor
    · rw [parse_clean_eq, hstrip]
    · rw [parse_base_data_eq, hstrip]
      set s := pathStem f.data with hs
      have hsplit : s = s.takeWhile isDigitChar ++ s.dropWhile isDigitChar :=
        (List.takeWhile_append_dropWhile _ _).symm
      have hrun_digit : ∀ x ∈ s.takeWhile isDigitChar, isDigitChar x = true :=
        fun x hx => List.mem_takeWhile_imp hx
      have hrun_nws : ∀ x ∈ s.takeWhile isDigitChar, isWsChar x = false :=
        fun x hx => ws_of_digit (hrun_digit x hx)
      have hrun_ne : s.takeWhile isDigitChar ≠ [] := by
        rw [hstem, List.takeWhile_cons_of_pos h1]
        simp
      have e1 : removeGroups '(' ')' s
          = s.takeWhile isDigitChar
            ++ removeGroups '(' ')' (s.dropWhile isDigitChar) := by
        conv_lhs => rw [hsplit]
        exact removeGroups_append_plain (fun x hx =>
          ⟨hrun_nws x hx, digit_ne_paren (hrun_digit x hx)⟩) _
      have e2 : removeGroups '[' ']'
            (s.takeWhile isDigitChar
              ++ removeGroups '(' ')' (s.dropWhile isDigitChar))
          = s.takeWhile isDigitChar
            ++ removeGroups '[' ']'
              (removeGroups '(' ')' (s.dropWhile isDigitChar)) :=
        removeGroups_append_plain (fun x hx =>
          ⟨hrun_nws x hx, digit_ne_bracket (hrun_digit x hx)⟩) _
      have e3 : collapseWs
            (s.takeWhile isDigitChar
              ++ removeGroups '[' ']'
                (removeGroups '(' ')' (s.dropWhile isDigitChar)))
          = s.takeWhile isDigitChar
            ++ collapseWs (removeGroups '[' ']'
                (removeGroups '(' ')' (s.dropWhile isDigitChar))) :=
        collapseWs_append_plain hrun_nws _
      obtain ⟨t, ht⟩ := pyStrip_append_keep hrun_ne hrun_nws
        (collapseWs (removeGroups '[' ']'
          (removeGroups '(' ')' (s.dropWhile isDigitChar))))
      rw [e1, e2, e3, ht]
      exact isPrefixOf_append_self _ _

/-- Witness for C3: the 3-digit prefix of `005 Go Go Ackman.zip` is
stripped; the 4-digit run of `1942 Loopz.zip` is kept in the base name. -/
theorem C3_three_digit_prefix_only_witness :
    (parse_game_filename "005 Go Go Ackman.zip").clean_filename
      = ⟨"Go Go Ackman".data.dropWhile isWsChar
          ++ pathSuffix "005 Go Go Ackman.zip".data⟩ ∧
    (parse_game_filename "1942 Loopz.zip").clean_filename
      = ⟨pathStem "1942 Loopz.zip".data ++ pathSuffix "1942 Loopz.zip".data⟩ ∧
    ((pathStem "1942 Loopz.zip".data).takeWhile isDigitChar).isPrefixOf
      (parse_game_filename "1942 Loopz.zip").base_name.data = true := by
  refine ⟨?_, ?_, ?_⟩
  · exact C3_three_digit_prefix_only.2.1 "005 Go Go Ackman.zip" '0' '0' '5' ' '
      "Go Go Ackman".data (by decide) (by decide) (by decide) (by decide) (by decide)
  · exact (C3_three_digit_prefix_only.2.2 "1942 Loopz.zip" '1' '9' '4' '2'
      " Loopz".data (by decide) (by decide) (by decide) (by decide) (by decide)).1
  · exact (C3_three_digit_prefix_only.2.2 "1942 Loopz.zip" '1' '9' '4' '2'
      " Loopz".data (by decide) (by decide) (by decide) (by decide) (by decide)).2

/-- C4: system-key resolution used for deduplication is idempotent: for
every input string, `_normalize_system_for_dedup` applied to an already
resolved key returns it unchanged, where resolution tries exact match,
then case-insensitive match, then containment match, and otherwise
returns the lowercased input. -/
theorem C4_normalize_system_idempotent (x : String) :
    normalize_system_for_dedup (normalize_system_for_dedup x)
      = normalize_system_for_dedup x := by
  unfold normalize_system_for_dedup
  cases h : get_system_info x with
  | none =>
    rw [gsi_lower_none h]
    exact pyLowerS_idem x
  | some info =>
    obtain ⟨q, hq, hlow⟩ := gsi_lower_of_mem (gsi_some_mem h)
    rw [hq]
    exact hlow

/-- C5 counterexample: the dedup key is NOT invariant under removing the
leading three-digit prefix: removing `123 ` from `123 456 Game.zip` leaves
`456 Game.zip`, whose own `456 ` prefix is then stripped, changing the
dedup key from `456 game` to `game`. -/
theorem C5_counterexample_prefix_removal :
    pathStem "123 456 Game.zip".data = '1' :: '2' :: '3' :: ' ' :: "456 Game".data ∧
    pathStem "456 Game.zip".data = "456 Game".data ∧
    get_dedup_key "123 456 Game.zip" = "456 game" ∧
    get_dedup_key "456 Game.zip" = "game" ∧
    get_dedup_key "123 456 Game.zip" ≠ get_dedup_key "456 Game.zip" := by
  refine ⟨by decide, by decide, by decide, by decide, by decide⟩

/-- C5 (amended): the dedup key depends only on the filename's stem, so it
is invariant under substitution of the file extension; it is invariant
under replacing the leading three-digit-plus-whitespace prefix by any
other such prefix; and it is invariant under removing the prefix provided
the remaining stem does not itself begin with whitespace or a three-digit
prefix of its own. -/
theorem C5_dedup_key_invariance :
    (∀ f1 f2 : String, pathStem f1.data = pathStem f2.data →
      get_dedup_key f1 = get_dedup_key f2) ∧
    (∀ (f1 f2 : String) (a1 a2 a3 b1 b2 b3 w0 x0 : Char) (w x r : List Char),
      isDigitChar a1 = true → isDigitChar a2 = true → isDigitChar a3 = true →
      isDigitChar b1 = true → isDigitChar b2 = true → isDigitChar b3 = true →
      isWsChar w0 = true → isWsChar x0 = true →
      (∀ c ∈ w, isWsChar c = true) → (∀ c ∈ x, isWsChar c = true) →
      pathStem f1.data = a1 :: a2 :: a3 :: w0 :: (w ++ r) →
      pathStem f2.data = b1 :: b2 :: b3 :: x0 :: (x ++ r) →
      get_dedup_key f1 = get_dedup_key f2) ∧
    (∀ (f1 f2 : String) (a1 a2 a3 w0 : Char) (w r : List Char),
      isDigitChar a1 = true → isDigitChar a2 = true → isDigitChar a3 = true →
      isWsChar w0 = true → (∀ c ∈ w, isWsChar c = true) →
      pathStem f1.data = a1 :: a2 :: a3 :: w0 :: (w ++ r) →
      pathStem f2.data = r →
      r.dropWhile isWsChar = r →
      stripPrefix3 r = r →
      get_dedup_key f1 = get_dedup_key f2) := by
  refine ⟨?_, ?_, ?_⟩
  · intro f1 f2 h
    exact dedup_key_of_clean (by rw [h])
  · intro f1 f2 a1 a2 a3 b1 b2 b3 w0 x0 w x r ha1 ha2 ha3 hb1 hb2 hb3 hw0 hx0
      hw hx h1 h2
    apply dedup_key_of_clean
    rw [h1, h2, stripPrefix3_run ha1 ha2 ha3 hw0 hw,
        stripPrefix3_run hb1 hb2 hb3 hx0 hx]
  · intro f1 f2 a1 a2 a3 w0 w r ha1 ha2 ha3 hw0 hw h1 h2 hdrop hstr
    apply dedup_key_of_clean
    rw [h1, h2, stripPrefix3_run ha1 ha2 ha3 hw0 hw, hdrop, hstr]

/-- Witness for C5: a different extension, a different prefix, and a safe
prefix removal all keep the dedup key. -/
theorem C5_dedup_key_invariance_witness :
    get_dedup_key "Game (USA).bin" = get_dedup_key "Game (USA).zip" ∧
    get_dedup_key "123 Game (USA).zip" = get_dedup_key "999  Game (USA).zip" ∧
    get_dedup_key "123 Game (USA).zip" = get_dedup_key "Game (USA).zip" := by
  refine ⟨?_, ?_, ?_⟩
  · exact C5_dedup_key_invariance.1 "Game (USA).bin" "Game (USA).zip" (by decide)
  · exact C5_dedup_key_invariance.2.1 "123 Game (USA).zip" "999  Game (USA).zip"
      '1' '2' '3' '9' '9' '9' ' ' ' ' [] [' '] "Game (USA)".data
      (by decide) (by decide) (by decide) (by decide) (by decide) (by decide)
      (by decide) (by decide) (by decide) (by decide) (by decide) (by decide)
  · exact C5_dedup_key_invariance.2.2 "123 Game (USA).zip" "Game (USA).zip"
      '1' '2' '3' ' ' [] "Game (USA)".data
      (by decide) (by decide) (by decide) (by decide) (by decide) (by decide)
      (by decide) (by decide) (by decide)

/-- C6: `match_thumbnail` tries the exact case-insensitive tier before the
base-form tier and returns the first hit: with available names
`["Super Mario Bros (USA)"]` and lookup name `"Super Mario Bros (Europe)"`
the exact tier (tier 1) fails, the base-form tier (tier 2) matches, and
the cascade returns `"Super Mario Bros (USA)"`. -/
theorem C6_base_form_tier_example :
    match_thumbnail "Super Mario Bros (Europe)" ["Super Mario Bros (USA)"]
      = some "Super Mario Bros (USA)" ∧
    mt_tier1 "Super Mario Bros (Europe)" ["Super Mario Bros (USA)"] = none ∧
    mt_tier2 "Super Mario Bros (Europe)" ["Super Mario Bros (USA)"]
      = some "Super Mario Bros (USA)" ∧
    (∀ (g : String) (fs : List String) (f : String),
      fs.isEmpty = false → mt_tier1 g fs = some f → match_thumbnail g fs = some f) ∧
    (∀ (g : String) (fs : List String) (f : String),
      fs.isEmpty = false → mt_tier1 g fs = none → mt_tier2 g fs = some f →
        match_thumbnail g fs = some f) := by
  refine ⟨by decide, by decide, by decide, ?_, ?_⟩
  · intro g fs f hne h1
    simp [match_thumbnail, hne, h1]
  · intro g fs f hne h1 h2
    simp [match_thumbnail, hne, h1, h2]

/-- Witness for C6's tier-order conjuncts at the claim's concrete input. -/
theorem C6_base_form_tier_example_witness :
    match_thumbnail "Super Mario Bros (Europe)" ["Super Mario Bros (USA)"]
      = some "Super Mario Bros (USA)" :=
  C6_base_form_tier_example.2.2.2.2 "Super Mario Bros (Europe)"
    ["Super Mario Bros (USA)"] "Super Mario Bros (USA)"
    (by decide) (by decide) (by decide)

/-- C8 counterexample: the images subdirectory is NOT the category name:
for category `boxart` the artwork path uses `images/boxarts/...`
(`THUMBNAIL_TYPES` value with `Named_` removed, lowercased), not
`images/boxart/...`. -/
theorem C8_counterexample_folder_name :
    type_folder "boxart" = "boxarts" ∧
    type_folder "boxart" ≠ "boxart" ∧
    dest_thumbnail_path "psp-Sony PlayStation Portable" "boxart" "Game (USA)"
      = "psp-Sony PlayStation Portable/images/boxarts/Game (USA).png" ∧
    dest_thumbnail_path "psp-Sony PlayStation Portable" "boxart" "Game (USA)"
      ≠ "psp-Sony PlayStation Portable/images/boxart/Game (USA).png" := by
  refine ⟨by decide, by decide, by decide, by decide⟩

/-- C8 (amended): for every requested category c in boxart/snap/title, a
matched artwork file for a ROM in output system folder S is written to
`S/images/{c}s/{lookupName}.png` — the images subdirectory is the
pluralized category name (the remote folder name with `Named_` stripped,
lowercased), not the category name itself. -/
theorem C8_images_folder_pluralized (c : String)
    (hc : c ∈ (["boxart", "snap", "title"] : List String))
    (system_folder game_name : String) :
    dest_thumbnail_path system_folder c game_name
      = system_folder ++ "/images/" ++ (c ++ "s") ++ "/" ++ game_name ++ ".png" := by
  fin_cases hc
  · rw [dest_thumbnail_path, show type_folder "boxart" = "boxart" ++ "s" from by decide]
  · rw [dest_thumbnail_path, show type_folder "snap" = "snap" ++ "s" from by decide]
  · rw [dest_thumbnail_path, show type_folder "title" = "title" ++ "s" from by decide]

/-- Witness for C8's amended theorem at category `snap`. -/
theorem C8_images_folder_pluralized_witness :
    ("snap" : String) ∈ (["boxart", "snap", "title"] : List String) ∧
    dest_thumbnail_path "gb-Nintendo Game Boy" "snap" "Tetris (World)"
      = "gb-Nintendo Game Boy" ++ "/images/" ++ ("snap" ++ "s") ++ "/"
        ++ "Tetris (World)" ++ ".png" :=
  ⟨by decide,
   C8_images_folder_pluralized "snap" (by decide) "gb-Nintendo Game Boy" "Tetris (World)"⟩

/-- C9 counterexample: a ROM accepted as new whose destination already
exists (overwrite not requested) is skipped, but the skip is counted in NO
result counter — `_copy_rom` just logs and returns `False`.  Here the
output folder `snes-msu1-…` seeds under the truncated key `snes`, so the
scanned ROM is classified new, yet its destination file exists; after the
run every counter is 0, nothing was copied, and there is no error. -/
theorem C9_counterexample_skip_uncounted :
    (consolidate {} exHyphenOutput [exHyphenRom]).copied = 0 ∧
    (consolidate {} exHyphenOutput [exHyphenRom]).skipped_existing = 0 ∧
    (consolidate {} exHyphenOutput [exHyphenRom]).skipped_duplicates = 0 ∧
    (consolidate {} exHyphenOutput [exHyphenRom]).skipped_filtered = 0 ∧
    (consolidate {} exHyphenOutput [exHyphenRom]).skipped_unknown_system = 0 ∧
    (consolidate {} exHyphenOutput [exHyphenRom]).errors = [] ∧
    (consolidate {} exHyphenOutput [exHyphenRom]).copied_files = [] ∧
    runTrace (scan_existing_output exHyphenState) [exHyphenRom] = [.new] ∧
    fileExistsIn exHyphenOutput (get_output_folder_name exHyphenRom.system_key)
      exHyphenRom.clean_filename = true := by
  refine ⟨?_, ?_, ?_, ?_, ?_, ?_, ?_, ?_, ?_⟩ <;> decide

/-- C9 (amended): when a ROM accepted as new reaches `_copy_rom` but its
destination file already exists and overwrite is not requested, the file
is skipped and NOT counted in any result counter; no entry is added to the
error list; the only state change of the whole step is the seen-set
insertion made before the copy attempt. -/
theorem C9_conflict_skip_changes_nothing (st : CState) (rom : Rom)
    (hnew : classify st rom = .new)
    (hdry : st.opts.dry_run = false)
    (hover : st.opts.overwrite = false)
    (hex : fileExistsIn st.output (get_output_folder_name rom.system_key)
      rom.clean_filename = true) :
    processRom st rom
      = { st with seen := seenInsert st.seen rom.full_key (.inputRom rom) } := by
  simp only [processRom, hnew]
  simp [copy_rom, hdry, hover, hex]

/-- Witness for C9's amended theorem on the hyphenated-system scenario. -/
theorem C9_conflict_skip_changes_nothing_witness :
    classify exHyphenState exHyphenRom = .new ∧
    processRom exHyphenState exHyphenRom
      = { exHyphenState with
          seen := seenInsert exHyphenState.seen exHyphenRom.full_key
            (.inputRom exHyphenRom) } :=
  ⟨by decide,
   C9_conflict_skip_changes_nothing _ _ (by decide) rfl rfl (by decide)⟩

/-- C7 counterexample: a fetch failure is NOT cached, so a second call of
`get_available_files` for the same (system, category) pair fetches again —
"fetched at most once per pair" fails for failing fetches (both calls
return the empty list and each failure is recorded as an error). -/
theorem C7_counterexample_failure_refetches :
    (get_available_files (fun _ => FetchOutcome.failure "timed out") {}
        "Nintendo_-_Game_Boy" "boxart").2.2 = true ∧
    (get_available_files (fun _ => FetchOutcome.failure "timed out")
        (get_available_files (fun _ => FetchOutcome.failure "timed out") {}
          "Nintendo_-_Game_Boy" "boxart").2.1
        "Nintendo_-_Game_Boy" "boxart").2.2 = true ∧
    (get_available_files (fun _ => FetchOutcome.failure "timed out") {}
        "Nintendo_-_Game_Boy" "boxart").1 = [] ∧
    (get_available_files (fun _ => FetchOutcome.failure "timed out") {}
        "Nintendo_-_Game_Boy" "boxart").2.1.cache = [] ∧
    (get_available_files (fun _ => FetchOutcome.failure "timed out") {}
        "Nintendo_-_Game_Boy" "boxart").2.1.errors.length = 1 ∧
    (get_available_files (fun _ => FetchOutcome.failure "timed out")
        (get_available_files (fun _ => FetchOutcome.failure "timed out") {}
          "Nintendo_-_Game_Boy" "boxart").2.1
        "Nintendo_-_Game_Boy" "boxart").2.1.errors.length = 2 := by
  refine ⟨?_, ?_, ?_, ?_, ?_, ?_⟩ <;> rfl

/-- C7 (amended): the listing for a (system, category) pair is cached on a
successful fetch or a 404, and every later call for the pair returns the
cached list without fetching; a failed or empty listing yields the empty
list (lookups degrade to "not found"); a non-404 failure is recorded as an
error but NOT cached, so a later call for that pair fetches again. -/
theorem C7_listing_cache_behaviour :
    (∀ (fetch : String → FetchOutcome) (st : ThumbnailCache) (sys t : String)
        (v : String × List String),
      st.cache.find? (fun e => e.1 == thumb_cache_key sys t) = some v →
      get_available_files fetch st sys t = (v.2, st, false)) ∧
    (∀ (fetch : String → FetchOutcome) (st : ThumbnailCache) (sys t : String)
        (paths : List String),
      st.cache.find? (fun e => e.1 == thumb_cache_key sys t) = none →
      fetch (thumb_api_url sys t) = .tree paths →
      get_available_files fetch st sys t
        = (pngStems paths,
           { st with cache := st.cache ++ [(thumb_cache_key sys t, pngStems paths)] },
           true) ∧
      get_available_files fetch
          { st with cache := st.cache ++ [(thumb_cache_key sys t, pngStems paths)] }
          sys t
        = (pngStems paths,
           { st with cache := st.cache ++ [(thumb_cache_key sys t, pngStems paths)] },
           false)) ∧
    (∀ (fetch : String → FetchOutcome) (st : ThumbnailCache) (sys t msg : String),
      st.cache.find? (fun e => e.1 == thumb_cache_key sys t) = none →
      fetch (thumb_api_url sys t) = .httpError 404 msg →
      get_available_files fetch st sys t
        = ([], { st with cache := st.cache ++ [(thumb_cache_key sys t, [])] }, true) ∧
      get_available_files fetch
          { st with cache := st.cache ++ [(thumb_cache_key sys t, [])] } sys t
        = ([], { st with cache := st.cache ++ [(thumb_cache_key sys t, [])] }, false)) ∧
    (∀ (fetch : String → FetchOutcome) (st : ThumbnailCache) (sys t msg : String)
        (code : Nat),
      st.cache.find? (fun e => e.1 == thumb_cache_key sys t) = none →
      fetch (thumb_api_url sys t) = .httpError code msg → code ≠ 404 →
      get_available_files fetch st sys t
        = ([], { st with errors := st.errors ++
            ["Error fetching " ++ thumb_api_url sys t ++ ": " ++ msg] }, true) ∧
      (get_available_files fetch
          { st with errors := st.errors ++
            ["Error fetching " ++ thumb_api_url sys t ++ ": " ++ msg] } sys t).2.2
        = true) ∧
    (∀ (fetch : String → FetchOutcome) (st : ThumbnailCache) (sys t msg : String),
      st.cache.find? (fun e => e.1 == thumb_cache_key sys t) = none →
      fetch (thumb_api_url sys t) = .failure msg →
      get_available_files fetch st sys t
        = ([], { st with errors := st.errors ++
            ["Error fetching " ++ thumb_api_url sys t ++ ": " ++ msg] }, true) ∧
      (get_available_files fetch
          { st with errors := st.errors ++
            ["Error fetching " ++ thumb_api_url sys t ++ ": " ++ msg] } sys t).2.2
        = true) := by
  have huncached : ∀ (fetch : String → FetchOutcome) (st : ThumbnailCache)
      (sys t : String),
      st.cache.find? (fun e => e.1 == thumb_cache_key sys t) = none →
      (get_available_files fetch st sys t).2.2 = true := by
    intro fetch st sys t h1
    unfold get_available_files
    rw [h1]
    cases hf : fetch (thumb_api_url sys t) with
    | tree paths => simp
    | httpError code msg =>
      by_cases hc : code = 404 <;> simp [hc]
    | failure msg => simp
  refine ⟨?_, ?_, ?_, ?_, ?_⟩
  · intro fetch st sys t v h1
    unfold get_available_files
    rw [h1]
    rfl
  · intro fetch st sys t paths h1 hf
    constructor
    · unfold get_available_files
      rw [h1, hf]
      rfl
    · unfold get_available_files
      rw [List.find?_append, h1]
      simp
  · intro fetch st sys t msg h1 hf
    constructor
    · unfold get_available_files
      rw [h1, hf]
      rfl
    · unfold get_available_files
      rw [List.find?_append, h1]
      simp
  · intro fetch st sys t msg code h1 hf hc
    constructor
    · unfold get_available_files
      rw [h1, hf]
      simp [hc]
    · exact huncached fetch _ sys t h1
  · intro fetch st sys t msg h1 hf
    constructor
    · unfold get_available_files
      rw [h1, hf]
      rfl
    · exact huncached fetch _ sys t h1

/-- C10: the seen-set insertion is not atomic with the copy: a ROM
classified new is inserted into the seen-set before its copy is attempted
(and the entry stays there whatever the copy does, since `_copy_rom` never
touches the seen-set); therefore every later input ROM in the same run
with the same (canonical system key, dedup key) is classified as a
duplicate of the first ROM and is never copied itself. -/
theorem C10_seen_inserted_before_copy (st : CState) (r : Rom) (ms : List Rom)
    (r' : Rom)
    (hfil : st.opts.systems_filter = none)
    (hnew : classify st r = .new)
    (hkey : r'.full_key = r.full_key) :
    seenLookup (processRom st r).seen r.full_key = some (.inputRom r) ∧
    classify (processRoms (processRom st r) ms) r' = .dupInput r ∧
    processRom (processRoms (processRom st r) ms) r'
      = { processRoms (processRom st r) ms with
          skipped_duplicates :=
            (processRoms (processRom st r) ms).skipped_duplicates + 1
          duplicate_files := (processRoms (processRom st r) ms).duplicate_files
            ++ [(r'.system_key, r'.filename, r.filename)] } := by
  have h1 : seenLookup (processRom st r).seen r.full_key = some (.inputRom r) := by
    unfold processRom
    rw [hnew]
    simp only [copy_rom_seen]
    rw [seenLookup_insert, if_pos rfl]
  have h2 : seenLookup (processRoms (processRom st r) ms).seen r.full_key
      = some (.inputRom r) := processRoms_seen_preserve h1 ms
  have hopts : (processRoms (processRom st r) ms).opts = st.opts := by
    rw [processRoms_opts, processRom_opts]
  have h3 : classify (processRoms (processRom st r) ms) r' = .dupInput r := by
    unfold classify
    have hall : is_system_allowed (processRoms (processRom st r) ms).opts
        r'.system_key = true := by
      unfold is_system_allowed
      rw [hopts, hfil]
    rw [if_neg (by simp [hall])]
    rw [hkey, h2]
  exact ⟨h1, h3, processRom_dup _ _ _ h3⟩

/-- Witness for C10: the first ROM's copy is even skipped (its destination
already exists), yet the later same-key ROM is a duplicate of it. -/
theorem C10_seen_inserted_before_copy_witness :
    seenLookup (processRom exHyphenState exHyphenRom).seen exHyphenRom.full_key
      = some (.inputRom exHyphenRom) ∧
    classify (processRoms (processRom exHyphenState exHyphenRom) [])
        { filename := "001 Game (USA).zip", system_key := "snes-msu1" }
      = .dupInput exHyphenRom ∧
    processRom (processRoms (processRom exHyphenState exHyphenRom) [])
        { filename := "001 Game (USA).zip", system_key := "snes-msu1" }
      = { processRoms (processRom exHyphenState exHyphenRom) [] with
          skipped_duplicates :=
            (processRoms (processRom exHyphenState exHyphenRom) []).skipped_duplicates
              + 1
          duplicate_files :=
            (processRoms (processRom exHyphenState exHyphenRom) []).duplicate_files
              ++ [("snes-msu1", "001 Game (USA).zip", "Game (USA).bin")] } :=
  C10_seen_inserted_before_copy exHyphenState exHyphenRom []
    { filename := "001 Game (USA).zip", system_key := "snes-msu1" }
    rfl (by decide) (by decide)

/-- Witness for C7's amended theorem: one successful fetch, then a cached
second call for the same pair. -/
theorem C7_listing_cache_behaviour_witness :
    get_available_files (fun _ => FetchOutcome.tree ["A.png", "B.txt"])
        ({} : ThumbnailCache) "X" "boxart"
      = (pngStems ["A.png", "B.txt"],
         { ({} : ThumbnailCache) with cache := ({} : ThumbnailCache).cache
             ++ [(thumb_cache_key "X" "boxart", pngStems ["A.png", "B.txt"])] },
         true) ∧
    get_available_files (fun _ => FetchOutcome.tree ["A.png", "B.txt"])
        { ({} : ThumbnailCache) with cache := ({} : ThumbnailCache).cache
            ++ [(thumb_cache_key "X" "boxart", pngStems ["A.png", "B.txt"])] }
        "X" "boxart"
      = (pngStems ["A.png", "B.txt"],
         { ({} : ThumbnailCache) with cache := ({} : ThumbnailCache).cache
             ++ [(thumb_cache_key "X" "boxart", pngStems ["A.png", "B.txt"])] },
         false) :=
  C7_listing_cache_behaviour.2.1 (fun _ => FetchOutcome.tree ["A.png", "B.txt"])
    {} "X" "boxart" ["A.png", "B.txt"] rfl rfl

end RGO
